import Mathlib

/-! Repeated protobuf fields (`repeated.go`).

A shallow embedding of the repeated-field builder of `protoschema`: the
constructor `Repeated`, the configuration methods `Unique`, `MinItems`,
`MaxItems`, and `Build`.

Go values are embedded as follows.

* `error` is `Option GoError` (`none` is `nil`); `errors.Join` and
  `fmt.Errorf` build the same trees as the Go standard library.
* `map[string]any` is `GoMap`, a list of entries kept in ascending key order
  with one entry per key. A Go map carries no insertion order, so two maps
  with the same entries are the same `GoMap`.
* `uint` and `uint32` are `Nat`; the code only stores and compares them.
* `formatProtoValue` and `getOptions` are called by `Build` but defined in
  another file of the package; `Build` takes them as the parameter `Helpers`.
-/

namespace Protoschema

/-! ## Go values -/

/-- A value of Go type `any`, as stored in option maps and rule maps. -/
inductive Value where
  | bool (b : Bool)
  | uint (n : Nat)
  | str (s : String)
  | map (entries : List (String × Value))

/-- Go `map[string]any`: entries in ascending key order, one per key. -/
abbrev GoMap := List (String × Value)

/-- Lexicographic order on keys, character by character. It only fixes the
canonical position of an entry inside a `GoMap`. -/
def keyLess : List Char → List Char → Bool
  | [], [] => false
  | [], _ :: _ => true
  | _ :: _, [] => false
  | a :: as, b :: bs =>
    if a.toNat < b.toNat then true
    else if b.toNat < a.toNat then false
    else keyLess as bs

/-- Go `m[k] = v`: overwrite the entry of `k`, or add it. -/
def GoMap.set : GoMap → String → Value → GoMap
  | [], k, v => [(k, v)]
  | (k0, v0) :: rest, k, v =>
    if k = k0 then (k, v) :: rest
    else if keyLess k.data k0.data then (k, v) :: (k0, v0) :: rest
    else (k0, v0) :: GoMap.set rest k v

/-- Go `m[k]`, with `none` for an absent key. -/
def GoMap.get : GoMap → String → Option Value
  | [], _ => none
  | (k0, v0) :: rest, k => if k = k0 then some v0 else GoMap.get rest k

/-- Go `maps.Copy(dst, src)`: every entry of `src` is written into `dst`. -/
def maps_Copy (dst src : GoMap) : GoMap :=
  src.foldl (fun m e => m.set e.1 e.2) dst

/-! ## Go errors -/

/-- A non-nil Go `error`: a leaf carrying its message (what `fmt.Errorf`
without `%w` returns) or the `joinError` that `errors.Join` returns. -/
inductive GoError where
  | errorString (msg : String)
  | joinError (errs : List GoError)

mutual
/-- The messages carried by an error, in order: the lines of `Error()`. -/
def GoError.lines : GoError → List String
  | .errorString m => [m]
  | .joinError es => GoError.linesList es
/-- The messages of a list of errors, concatenated. -/
def GoError.linesList : List GoError → List String
  | [] => []
  | e :: es => e.lines ++ GoError.linesList es
end

/-- The messages of a possibly nil error; `nil` carries none. -/
def errorLines : Option GoError → List String
  | none => []
  | some e => e.lines

/-- Go `errors.Join(errs...)`: nil values are discarded; the result is `nil`
when nothing is left and a `joinError` wrapping what is left otherwise. -/
def errors_Join (errs : List (Option GoError)) : Option GoError :=
  match errs.filterMap id with
  | [] => none
  | e :: es => some (.joinError (e :: es))

/-- Go `fmt.Errorf(msg)` for a format string without verbs. -/
def fmt_Errorf (msg : String) : Option GoError :=
  some (.errorString msg)

/-! ## Data model -/

/-- A reference to a message schema (a Go pointer): `none` is `nil`, and a
referenced schema is identified by its name. -/
abbrev MessageRef := Option String

/-- The Go type `Set` of the import tracker handed to `Build`. -/
abbrev ImportSet := List String

/-- The descriptor `FieldData`, with the fields that `repeated.go` reads or
writes. The struct is declared in another file of the package. -/
structure FieldData where
  Name : String
  ProtoType : String
  GoType : String
  Optional : Bool
  FieldNr : Nat
  Repeated : Bool
  Required : Bool
  IsMap : Bool
  IsNonScalar : Bool
  Options : List String
  Rules : GoMap
  ProtoBaseType : String
  MessageRef : MessageRef

/-- The zero value `FieldData{}`. -/
def FieldData.zero : FieldData :=
  { Name := "", ProtoType := "", GoType := "", Optional := false, FieldNr := 0,
    Repeated := false, Required := false, IsMap := false, IsNonScalar := false,
    Options := [], Rules := [], ProtoBaseType := "", MessageRef := none }

/-- The interface `FieldBuilder`, with the three methods `repeated.go` calls.
`Build` is a function of the field number and the import set; what an inner
builder writes into the import set is not part of what it returns. -/
structure FieldBuilder where
  Build : Nat → ImportSet → FieldData × Option GoError
  GetGoType : String
  GetMessageRef : MessageRef

/-- The fields of `protoFieldInternal` that `repeated.go` sets or reads. -/
structure protoFieldInternal where
  options : GoMap
  rules : GoMap
  repeated : Bool
  goType : String
  name : String
  isNonScalar : Bool
  messageRef : MessageRef
  errors : Option GoError
  repeatedOptions : List String

/-- The struct `RepeatedField`; `ProtoField` is the embedded
`*ProtoField[RepeatedField]`, whose promoted fields `Build` reads. -/
structure RepeatedField where
  name : String
  field : FieldBuilder
  unique : Bool
  minItems : Option Nat
  maxItems : Option Nat
  ProtoField : protoFieldInternal

/-- The two package helpers that `Build` calls. Each returns its result and
an error side by side, as the Go functions do. -/
structure Helpers where
  formatProtoValue : Value → String × Option GoError
  getOptions : GoMap → List String → List String × Option GoError

/-! ## Messages and option keys -/

def uniqueNonScalarMsg : String :=
  "Cannot apply contraint 'unique' to a non-scalar repeated field."

def mapRepeatedMsg : String :=
  "Map fields cannot be repeated (must be wrapped in a message type)"

def nestedRepeatedMsg : String :=
  "Cannot nest repeated fields inside one another (must be wrapped inside a message type first)"

def boundsInversionMsg : String :=
  "max_items cannot be smaller than min_items."

def uniqueKey : String := "(buf.validate.field).repeated.unique"

def minItemsKey : String := "(buf.validate.field).repeated.min_items"

def maxItemsKey : String := "(buf.validate.field).repeated.max_items"

def itemsPrefix : String := "(buf.validate.field).repeated.items = "

/-! ## The builder -/

/-- The constructor `Repeated(name, b)`. -/
def Repeated (name : String) (b : FieldBuilder) : RepeatedField :=
  { name := name, field := b, unique := false, minItems := none, maxItems := none,
    ProtoField :=
      { options := [], rules := [], repeated := true, goType := "[]" ++ b.GetGoType,
        name := name, isNonScalar := true, messageRef := b.GetMessageRef,
        errors := none, repeatedOptions := [] } }

/-- The method `Unique()`. -/
def RepeatedField.Unique (b : RepeatedField) : RepeatedField :=
  { b with
    ProtoField := { b.ProtoField with
      options := b.ProtoField.options.set uniqueKey (.bool true) },
    unique := true }

/-- The method `MinItems(n)`. -/
def RepeatedField.MinItems (b : RepeatedField) (n : Nat) : RepeatedField :=
  let errs :=
    match b.maxItems with
    | some m =>
      if m < n then errors_Join [b.ProtoField.errors, fmt_Errorf boundsInversionMsg]
      else b.ProtoField.errors
    | none => b.ProtoField.errors
  { b with
    ProtoField := { b.ProtoField with
      errors := errs,
      options := b.ProtoField.options.set minItemsKey (.uint n) },
    minItems := some n }

/-- The method `MaxItems(n)`. -/
def RepeatedField.MaxItems (b : RepeatedField) (n : Nat) : RepeatedField :=
  let errs :=
    match b.minItems with
    | some m =>
      if m > n then errors_Join [b.ProtoField.errors, fmt_Errorf boundsInversionMsg]
      else b.ProtoField.errors
    | none => b.ProtoField.errors
  { b with
    ProtoField := { b.ProtoField with
      errors := errs,
      options := b.ProtoField.options.set maxItemsKey (.uint n) },
    maxItems := some n }

/-- Lines 36 to 56 of `Build`: the inner descriptor and the error aggregated
from the inner builder, the configuration errors and the three structural
checks. -/
def RepeatedField.buildChecks (b : RepeatedField) (fieldNr : Nat) (imports : ImportSet) :
    FieldData × Option GoError :=
  let inner := b.field.Build fieldNr imports
  let fieldData := inner.1
  let err := errors_Join [inner.2, b.ProtoField.errors]
  let err :=
    if b.unique then
      if fieldData.IsNonScalar then errors_Join [err, fmt_Errorf uniqueNonScalarMsg] else err
    else err
  let err := if fieldData.IsMap then errors_Join [err, fmt_Errorf mapRepeatedMsg] else err
  let err :=
    if fieldData.Repeated then errors_Join [err, fmt_Errorf nestedRepeatedMsg] else err
  (fieldData, err)

/-- Lines 62 to 77 of `Build`: the copy of `repeatedOptions`, extended by the
promoted rules of the inner descriptor, and the error so far. -/
def RepeatedField.buildRuleOption (H : Helpers) (b : RepeatedField) (fieldNr : Nat)
    (imports : ImportSet) : List String × Option GoError :=
  let checked := b.buildChecks fieldNr imports
  let fieldData := checked.1
  let err := checked.2
  let options := b.ProtoField.repeatedOptions
  if fieldData.Rules.length > 0 then
    let rulesCopy := maps_Copy [] fieldData.Rules
    let rulesMap := GoMap.set [] fieldData.ProtoBaseType (.map rulesCopy)
    let formatted := H.formatProtoValue (.map rulesMap)
    let err := if formatted.2.isSome then errors_Join [err, formatted.2] else err
    (options ++ [itemsPrefix ++ formatted.1], err)
  else (options, err)

/-- Lines 79 to 83 of `Build`: the option list returned by `getOptions` and
the fully aggregated error. -/
def RepeatedField.buildMerge (H : Helpers) (b : RepeatedField) (fieldNr : Nat)
    (imports : ImportSet) : List String × Option GoError :=
  let promoted := b.buildRuleOption H fieldNr imports
  let merged := H.getOptions b.ProtoField.options promoted.1
  let err := if merged.2.isSome then errors_Join [promoted.2, merged.2] else promoted.2
  (merged.1, err)

/-- The method `Build(fieldNr, imports)`: lines 85 to 89 on top of the three
steps above. The two `fmt.Printf` calls write to standard output and leave the
returned pair untouched; `buildDiagnostics` lists them. -/
def RepeatedField.Build (H : Helpers) (b : RepeatedField) (fieldNr : Nat)
    (imports : ImportSet) : FieldData × Option GoError :=
  let fieldData := (b.buildChecks fieldNr imports).1
  let merged := b.buildMerge H fieldNr imports
  if merged.2.isSome then (FieldData.zero, merged.2)
  else
    ({ Name := b.name, ProtoType := fieldData.ProtoType, GoType := b.ProtoField.goType,
       Optional := fieldData.Optional, FieldNr := fieldNr, Repeated := true,
       Required := false, IsMap := false, IsNonScalar := true, Options := merged.1,
       Rules := [], ProtoBaseType := "", MessageRef := fieldData.MessageRef }, none)

/-- A line `Build` prints with `fmt.Printf`, with the field name it is
formatted with: `Ignoring 'optional' for repeated field ...` (line 41) and
`Ignoring ineffective 'required' option for repeated field ...` (line 59). -/
inductive Diagnostic where
  | ignoringOptional (name : String)
  | ignoringRequired (name : String)
  deriving DecidableEq

/-- The diagnostics `Build` prints, in order (lines 40 to 42 and 58 to 60). -/
def RepeatedField.buildDiagnostics (b : RepeatedField) (fieldNr : Nat)
    (imports : ImportSet) : List Diagnostic :=
  let fieldData := (b.field.Build fieldNr imports).1
  (if fieldData.Optional then [Diagnostic.ignoringOptional b.name] else []) ++
  (if fieldData.Required then [Diagnostic.ignoringRequired b.name] else [])

/-- The methods of `FieldBuilder` as seen from a `RepeatedField`.
Modelled from the spec: `GetGoType` and `GetMessageRef` come from the embedded
`ProtoField`, which is not in src; the spec's `TypeName()` and
`MessageReference()` return the builder's derived type name and its message
reference, here the stored `goType` and `messageRef`. -/
def RepeatedField.asFieldBuilder (H : Helpers) (b : RepeatedField) : FieldBuilder :=
  { Build := fun fieldNr imports => b.Build H fieldNr imports,
    GetGoType := b.ProtoField.goType,
    GetMessageRef := b.ProtoField.messageRef }

/-! ## Configuration sequences -/

/-- One call of a configuration method of this file. -/
inductive Call where
  | Unique
  | MinItems (n : Nat)
  | MaxItems (n : Nat)

/-- The builder after one configuration call. -/
def RepeatedField.call (b : RepeatedField) : Call → RepeatedField
  | .Unique => b.Unique
  | .MinItems n => b.MinItems n
  | .MaxItems n => b.MaxItems n

/-- The builder after a chain of configuration calls, first call first. -/
def RepeatedField.configure (b : RepeatedField) (calls : List Call) : RepeatedField :=
  calls.foldl RepeatedField.call b

/-! ## Helpers modelled from the spec, and sample inner builders -/

mutual
/-- Modelled from the spec: `formatProtoValue` is not in src. The spec says it
"converts a nested mapping of rule-name → value into the
validation-annotation literal syntax"; this renders booleans and numbers
bare, strings quoted, and a mapping as its `key: value` entries in braces. -/
def renderValue : Value → String
  | .bool b => if b then "true" else "false"
  | .uint n => toString n
  | .str s => "\"" ++ s ++ "\""
  | .map es => "\x7b" ++ renderEntries es ++ " \x7d"
/-- Modelled from the spec: the entries of a mapping rendered by
`formatProtoValue` (not in src), each as `key: value`. -/
def renderEntries : List (String × Value) → String
  | [] => ""
  | (k, v) :: rest => " " ++ k ++ ": " ++ renderValue v ++ renderEntries rest
end

/-- Modelled from the spec: `formatProtoValue` is not in src; the model
serializes every value and reports no failure. -/
def specFormatProtoValue (v : Value) : String × Option GoError :=
  (renderValue v, none)

/-- Modelled from the spec: `getOptions` is not in src. The spec says it
"takes the locally accumulated option map and the ordered option list built
so far, and returns the final ordered option list", the promoted rules being
"positioned after all locally-configured options"; each entry of the map
becomes `key = value`, in the order of the map, followed by the list. -/
def specGetOptions (opts : GoMap) (list : List String) : List String × Option GoError :=
  (opts.map (fun e => e.1 ++ " = " ++ renderValue e.2) ++ list, none)

/-- The two helpers as modelled from the spec. -/
def specHelpers : Helpers :=
  { formatProtoValue := specFormatProtoValue, getOptions := specGetOptions }

/-- An inner builder that returns the descriptor `fd`, with the field number
it is given, together with the error `err`. -/
def stubBuilder (fd : FieldData) (err : Option GoError) : FieldBuilder :=
  { Build := fun fieldNr _ => ({ fd with FieldNr := fieldNr }, err),
    GetGoType := fd.GoType,
    GetMessageRef := fd.MessageRef }

/-- The descriptor of a plain scalar `string` field. -/
def stringData : FieldData :=
  { FieldData.zero with
    Name := "inner", ProtoType := "string", GoType := "string", ProtoBaseType := "string" }

/-- The descriptor of a message-typed field: it is non-scalar. -/
def messageData : FieldData :=
  { FieldData.zero with
    Name := "inner", ProtoType := "Msg", GoType := "*Msg", IsNonScalar := true,
    MessageRef := some "Msg" }

/-- The descriptor of a map field. -/
def mapData : FieldData :=
  { FieldData.zero with
    Name := "inner", ProtoType := "map<string, string>", GoType := "map[string]string",
    IsMap := true, IsNonScalar := true }

/-- The descriptor of a `string` field marked optional. -/
def optionalData : FieldData :=
  { stringData with Optional := true }

/-- The descriptor of a `string` field carrying the rule `pattern: "^a"`. -/
def patternData : FieldData :=
  { stringData with Rules := [("pattern", .str "^a")] }

/-- The descriptor of a `string` field marked required. -/
def requiredData : FieldData :=
  { stringData with Required := true }

/-- Helpers whose serializer fails on every value: it returns the empty
string together with an error; the option merge is the one modelled from the
spec. -/
def failingSerializer : Helpers :=
  { formatProtoValue := fun _ => ("", fmt_Errorf "cannot format value"),
    getOptions := specGetOptions }

/-- Helpers whose option merge fails on every input: it returns no option
together with an error; the serializer is the one modelled from the spec. -/
def failingMerge : Helpers :=
  { formatProtoValue := specFormatProtoValue,
    getOptions := fun _ _ => ([], fmt_Errorf "cannot merge options") }

/-! ## Values read off a run or a configuration sequence -/

/-- The value of `rulesMap` at line 71 of `Build`: the rules of the inner
descriptor, copied and nested under the single key `ProtoBaseType`. It is the
argument `buildRuleOption` gives to the serializer. -/
def promotedRules (fd : FieldData) : Value :=
  .map (GoMap.set [] fd.ProtoBaseType (.map (maps_Copy [] fd.Rules)))

/-- The argument of the most recent `MinItems` call in a sequence, first call
first; `none` when the sequence has no such call. -/
def lastMinItems : List Call → Option Nat
  | [] => none
  | c :: rest =>
    match lastMinItems rest with
    | some n => some n
    | none =>
      match c with
      | .MinItems n => some n
      | _ => none

/-- The argument of the most recent `MaxItems` call in a sequence, first call
first; `none` when the sequence has no such call. -/
def lastMaxItems : List Call → Option Nat
  | [] => none
  | c :: rest =>
    match lastMaxItems rest with
    | some n => some n
    | none =>
      match c with
      | .MaxItems n => some n
      | _ => none

/-! ## Maps: assignment and lookup -/

/-- After `m[k] = v`, looking up `k` gives `v`. -/
theorem GoMap.get_set_same (m : GoMap) (k : String) (v : Value) :
    (m.set k v).get k = some v := by
  induction m with
  | nil => simp [GoMap.set, GoMap.get]
  | cons e rest ih =>
    obtain ⟨k0, v0⟩ := e
    unfold GoMap.set
    by_cases h1 : k = k0
    · simp [h1, GoMap.get]
    · by_cases h2 : keyLess k.data k0.data = true
      · simp [h1, h2, GoMap.get]
      · simp [h1, h2, GoMap.get, ih]

/-- After `m[k] = v`, looking up another key gives what it gave before. -/
theorem GoMap.get_set_other (m : GoMap) (k k1 : String) (v : Value) (hne : k1 ≠ k) :
    (m.set k v).get k1 = m.get k1 := by
  induction m with
  | nil => simp [GoMap.set, GoMap.get, hne]
  | cons e rest ih =>
    obtain ⟨k0, v0⟩ := e
    unfold GoMap.set
    by_cases h1 : k = k0
    · subst h1
      simp [GoMap.get, hne]
    · by_cases h2 : keyLess k.data k0.data = true
      · simp [h1, h2, GoMap.get, hne]
      · by_cases h3 : k1 = k0
        · simp [h1, h2, GoMap.get, h3]
        · simp [h1, h2, GoMap.get, h3, ih]

/-- Writing a key twice keeps the second value only. -/
theorem GoMap.set_set (m : GoMap) (k : String) (v1 v2 : Value) :
    (m.set k v1).set k v2 = m.set k v2 := by
  induction m with
  | nil => simp [GoMap.set]
  | cons e rest ih =>
    obtain ⟨k0, v0⟩ := e
    by_cases h1 : k = k0
    · simp [GoMap.set, h1]
    · by_cases h2 : keyLess k.data k0.data = true
      · simp [GoMap.set, h1, h2]
      · simp [GoMap.set, h1, h2, ih]

/-! ## Maps: the order of writes is not recorded -/

/-- A character is determined by its code point. -/
theorem char_toNat_inj (a b : Char) (h : a.toNat = b.toNat) : a = b := by
  apply Char.ext
  apply UInt32.ext
  exact h

/-- The key order is asymmetric. -/
theorem keyLess_asymm : ∀ (a b : List Char), keyLess a b = true → keyLess b a = false
  | [], [], h => by simp [keyLess] at h
  | [], _ :: _, _ => by simp [keyLess]
  | _ :: _, [], h => by simp [keyLess] at h
  | a :: as, b :: bs, h => by
    unfold keyLess at h ⊢
    by_cases h1 : a.toNat < b.toNat
    · have h2 : ¬ b.toNat < a.toNat := by omega
      simp [h1, h2]
    · by_cases h2 : b.toNat < a.toNat
      · simp [h1, h2] at h
      · simp only [h1, h2, if_false] at h ⊢
        exact keyLess_asymm as bs h

/-- Two keys that the order does not separate are equal. -/
theorem keyLess_total : ∀ (a b : List Char), keyLess a b = false → keyLess b a = false → a = b
  | [], [], _, _ => rfl
  | [], _ :: _, h, _ => by simp [keyLess] at h
  | _ :: _, [], _, h => by simp [keyLess] at h
  | a :: as, b :: bs, h, h' => by
    unfold keyLess at h h'
    by_cases h1 : a.toNat < b.toNat
    · simp [h1] at h
    · by_cases h2 : b.toNat < a.toNat
      · simp [h2] at h'
      · simp only [h1, h2, if_false] at h h'
        have hab : a = b := char_toNat_inj a b (by omega)
        rw [hab, keyLess_total as bs h h']

/-- The key order is transitive. -/
theorem keyLess_trans : ∀ (a b c : List Char), keyLess a b = true → keyLess b c = true → keyLess a c = true
  | [], [], _, h, _ => by simp [keyLess] at h
  | [], _ :: _, [], _, h => by simp [keyLess] at h
  | [], _ :: _, _ :: _, _, _ => by simp [keyLess]
  | _ :: _, [], _, h, _ => by simp [keyLess] at h
  | _ :: _, _ :: _, [], _, h => by simp [keyLess] at h
  | a :: as, b :: bs, c :: cs, h, h' => by
    unfold keyLess at h h' ⊢
    by_cases h1 : a.toNat < b.toNat
    · by_cases h2 : b.toNat < c.toNat
      · have : a.toNat < c.toNat := by omega
        simp [this]
      · by_cases h3 : c.toNat < b.toNat
        · simp [h2, h3] at h'
        · have : a.toNat < c.toNat := by omega
          simp [this]
    · by_cases h1' : b.toNat < a.toNat
      · simp [h1, h1'] at h
      · simp only [h1, h1', if_false] at h
        by_cases h2 : b.toNat < c.toNat
        · have : a.toNat < c.toNat := by omega
          simp [this]
        · by_cases h3 : c.toNat < b.toNat
          · simp [h2, h3] at h'
          · simp only [h2, h3, if_false] at h'
            have e1 : ¬ a.toNat < c.toNat := by omega
            have e2 : ¬ c.toNat < a.toNat := by omega
            simp only [e1, e2, if_false]
            exact keyLess_trans as bs cs h h'

theorem key_asymm (a b : String) (h : keyLess a.data b.data = true) :
    keyLess b.data a.data = false := keyLess_asymm _ _ h

theorem key_total (a b : String) (hne : a ≠ b) (h : keyLess a.data b.data = false) :
    keyLess b.data a.data = true := by
  by_contra h2
  have h3 : keyLess b.data a.data = false := by simpa using h2
  exact hne (String.ext (keyLess_total _ _ h h3))

theorem key_trans (a b c : String) (h1 : keyLess a.data b.data = true)
    (h2 : keyLess b.data c.data = true) : keyLess a.data c.data = true :=
  keyLess_trans _ _ _ h1 h2

theorem key_irrefl (a : String) : keyLess a.data a.data = false := by
  by_contra h
  have h1 : keyLess a.data a.data = true := by simpa using h
  have := key_asymm a a h1
  simp [h1] at this

/-- Assignments to two different keys commute: the map reached does not
depend on which of the two was written first. -/
theorem GoMap.set_comm (m : GoMap) (k1 k2 : String) (v1 v2 : Value) (hne : k1 ≠ k2) :
    (m.set k1 v1).set k2 v2 = (m.set k2 v2).set k1 v1 := by
  have hne' : k2 ≠ k1 := fun h => hne h.symm
  induction m with
  | nil =>
    cases h : keyLess k1.data k2.data
    · have := key_total k1 k2 hne h
      simp [GoMap.set, hne, hne', h, this]
    · have := key_asymm k1 k2 h
      simp [GoMap.set, hne, hne', h, this]
  | cons e rest ih =>
    obtain ⟨k0, v0⟩ := e
    cases h12 : keyLess k1.data k2.data
    · have h21 := key_total k1 k2 hne h12
      by_cases e1 : k1 = k0
      · subst e1
        simp [GoMap.set, hne, hne', h12, h21]
      · by_cases e2 : k2 = k0
        · subst e2
          have := key_irrefl k2
          simp [GoMap.set, hne, hne', h12, h21, this]
        · cases h10 : keyLess k1.data k0.data
          · cases h20 : keyLess k2.data k0.data
            · simp [GoMap.set, hne, hne', e1, e2, h10, h20, ih]
            · simp [GoMap.set, hne, hne', e1, e2, h10, h20, h12, h21]
          · have h20 := key_trans k2 k1 k0 h21 h10
            simp [GoMap.set, hne, hne', e1, e2, h10, h20, h12, h21]
    · have h21 := key_asymm k1 k2 h12
      by_cases e1 : k1 = k0
      · subst e1
        have := key_irrefl k1
        simp [GoMap.set, hne, hne', h12, h21, this]
      · by_cases e2 : k2 = k0
        · subst e2
          simp [GoMap.set, hne, hne', h12, h21]
        · cases h20 : keyLess k2.data k0.data
          · cases h10 : keyLess k1.data k0.data
            · simp [GoMap.set, hne, hne', e1, e2, h10, h20, ih]
            · simp [GoMap.set, hne, hne', e1, e2, h10, h20, h12, h21]
          · have h10 := key_trans k1 k2 k0 h12 h20
            simp [GoMap.set, hne, hne', e1, e2, h10, h20, h12, h21]

/-! ## Errors: joining and reading -/

theorem errorLines_join_pair (a b : Option GoError) :
    errorLines (errors_Join [a, b]) = errorLines a ++ errorLines b := by
  cases a <;> cases b <;>
    simp [errors_Join, errorLines, GoError.lines, GoError.linesList]

theorem join_pair_isSome_right (a : Option GoError) (e : GoError) :
    (errors_Join [a, some e]).isSome = true := by
  cases a <;> simp [errors_Join]

theorem join_pair_isSome_left (e : GoError) (b : Option GoError) :
    (errors_Join [some e, b]).isSome = true := by
  cases b <;> simp [errors_Join]

theorem join_pair_isSome (a b : Option GoError) :
    (errors_Join [a, b]).isSome = (a.isSome || b.isSome) := by
  cases a <;> cases b <;> simp [errors_Join]

theorem errorLines_fmt_Errorf (msg : String) : errorLines (fmt_Errorf msg) = [msg] := by
  simp [fmt_Errorf, errorLines, GoError.lines]

/-! ## The aggregated error of `Build` -/

/-- `Build` returns the error aggregated by its last merge step. -/
theorem Build_err (H : Helpers) (b : RepeatedField) (fieldNr : Nat) (imports : ImportSet) :
    (b.Build H fieldNr imports).2 = (b.buildMerge H fieldNr imports).2 := by
  unfold RepeatedField.Build
  cases h : (b.buildMerge H fieldNr imports).2 <;> simp [h]

theorem errorLines_join_if (c : Prop) [Decidable c] (e : Option GoError) (msg : String) :
    errorLines (if c then errors_Join [e, fmt_Errorf msg] else e) =
      errorLines e ++ (if c then [msg] else []) := by
  by_cases hc : c <;> simp [hc, errorLines_join_pair, errorLines_fmt_Errorf]

theorem errorLines_join_isSome (e f : Option GoError) :
    errorLines (if f.isSome = true then errors_Join [e, f] else e) =
      errorLines e ++ errorLines f := by
  cases f with
  | none => simp [errorLines]
  | some v => simp [errorLines_join_pair]

/-- The messages of the error after the structural checks, cause by cause. -/
theorem buildChecks_lines (b : RepeatedField) (fieldNr : Nat) (imports : ImportSet) :
    errorLines (b.buildChecks fieldNr imports).2 =
      errorLines (b.field.Build fieldNr imports).2 ++ errorLines b.ProtoField.errors ++
      (if b.unique = true ∧ (b.field.Build fieldNr imports).1.IsNonScalar = true
        then [uniqueNonScalarMsg] else []) ++
      (if (b.field.Build fieldNr imports).1.IsMap = true then [mapRepeatedMsg] else []) ++
      (if (b.field.Build fieldNr imports).1.Repeated = true then [nestedRepeatedMsg] else []) := by
  have hu : ∀ (u n : Bool) (e : Option GoError),
      (if u = true then (if n = true then errors_Join [e, fmt_Errorf uniqueNonScalarMsg] else e)
        else e) =
      (if u = true ∧ n = true then errors_Join [e, fmt_Errorf uniqueNonScalarMsg] else e) := by
    intro u n e
    cases u <;> cases n <;> simp
  simp only [RepeatedField.buildChecks, hu, errorLines_join_if, errorLines_join_pair]

/-- The descriptor that the structural checks look at is the inner one. -/
theorem buildChecks_data (b : RepeatedField) (fieldNr : Nat) (imports : ImportSet) :
    (b.buildChecks fieldNr imports).1 = (b.field.Build fieldNr imports).1 := rfl

/-- The messages of the fully aggregated error, cause by cause. -/
theorem buildMerge_lines (H : Helpers) (b : RepeatedField) (fieldNr : Nat)
    (imports : ImportSet) :
    errorLines (b.buildMerge H fieldNr imports).2 =
      errorLines (b.buildChecks fieldNr imports).2 ++
      (if (b.buildChecks fieldNr imports).1.Rules.length > 0 then
        errorLines (H.formatProtoValue (.map (GoMap.set []
          (b.buildChecks fieldNr imports).1.ProtoBaseType
          (.map (maps_Copy [] (b.buildChecks fieldNr imports).1.Rules))))).2
       else []) ++
      errorLines (H.getOptions b.ProtoField.options
        (b.buildRuleOption H fieldNr imports).1).2 := by
  simp only [RepeatedField.buildMerge, errorLines_join_isSome]
  congr 1
  unfold RepeatedField.buildRuleOption
  by_cases hr : (b.buildChecks fieldNr imports).1.Rules.length > 0
  · simp only [hr, if_true, errorLines_join_isSome]
  · simp only [hr, if_false, List.append_nil]

/-- The messages of the error `Build` returns, cause by cause and in order:
inner builder, configuration, the three structural checks, rule
serialization, option merge. -/
theorem Build_lines (H : Helpers) (b : RepeatedField) (fieldNr : Nat) (imports : ImportSet) :
    errorLines (b.Build H fieldNr imports).2 =
      errorLines (b.field.Build fieldNr imports).2 ++ errorLines b.ProtoField.errors ++
      (if b.unique = true ∧ (b.field.Build fieldNr imports).1.IsNonScalar = true
        then [uniqueNonScalarMsg] else []) ++
      (if (b.field.Build fieldNr imports).1.IsMap = true then [mapRepeatedMsg] else []) ++
      (if (b.field.Build fieldNr imports).1.Repeated = true then [nestedRepeatedMsg] else []) ++
      (if (b.field.Build fieldNr imports).1.Rules.length > 0 then
        errorLines (H.formatProtoValue (.map (GoMap.set []
          (b.field.Build fieldNr imports).1.ProtoBaseType
          (.map (maps_Copy [] (b.field.Build fieldNr imports).1.Rules))))).2
       else []) ++
      errorLines (H.getOptions b.ProtoField.options
        (b.buildRuleOption H fieldNr imports).1).2 := by
  rw [Build_err, buildMerge_lines, buildChecks_lines, buildChecks_data]

/-- An error that carries a message is not nil. -/
theorem ne_none_of_mem_errorLines {e : Option GoError} {m : String}
    (h : m ∈ errorLines e) : e ≠ none := by
  intro he
  subst he
  simp [errorLines] at h

/-- A failing `Build` returns the zero descriptor. -/
theorem Build_data_of_err (H : Helpers) (b : RepeatedField) (fieldNr : Nat)
    (imports : ImportSet) (h : (b.Build H fieldNr imports).2 ≠ none) :
    (b.Build H fieldNr imports).1 = FieldData.zero := by
  rw [Build_err] at h
  unfold RepeatedField.Build
  cases hm : (b.buildMerge H fieldNr imports).2 with
  | none => exact absurd hm h
  | some e => simp [hm]

/-- A succeeding `Build` returns the composed descriptor. -/
theorem Build_data_of_ok (H : Helpers) (b : RepeatedField) (fieldNr : Nat)
    (imports : ImportSet) (h : (b.Build H fieldNr imports).2 = none) :
    (b.Build H fieldNr imports).1 =
      { Name := b.name, ProtoType := (b.field.Build fieldNr imports).1.ProtoType,
        GoType := b.ProtoField.goType,
        Optional := (b.field.Build fieldNr imports).1.Optional, FieldNr := fieldNr,
        Repeated := true, Required := false, IsMap := false, IsNonScalar := true,
        Options := (b.buildMerge H fieldNr imports).1, Rules := [], ProtoBaseType := "",
        MessageRef := (b.field.Build fieldNr imports).1.MessageRef } := by
  rw [Build_err] at h
  unfold RepeatedField.Build
  simp [h, buildChecks_data]

/-- The error after the structural checks is nil exactly when no cause holds. -/
theorem buildChecks_err_isSome (b : RepeatedField) (fieldNr : Nat) (imports : ImportSet) :
    (b.buildChecks fieldNr imports).2.isSome =
      ((b.field.Build fieldNr imports).2.isSome || b.ProtoField.errors.isSome ||
       (b.unique && (b.field.Build fieldNr imports).1.IsNonScalar) ||
       (b.field.Build fieldNr imports).1.IsMap ||
       (b.field.Build fieldNr imports).1.Repeated) := by
  have hstep : ∀ (c : Bool) (e : Option GoError) (msg : String),
      (if c = true then errors_Join [e, fmt_Errorf msg] else e).isSome = (e.isSome || c) := by
    intro c e msg
    cases c <;> simp [join_pair_isSome, fmt_Errorf]
  have hu : ∀ (u n : Bool) (e : Option GoError),
      (if u = true then (if n = true then errors_Join [e, fmt_Errorf uniqueNonScalarMsg] else e)
        else e) =
      (if (u && n) = true then errors_Join [e, fmt_Errorf uniqueNonScalarMsg] else e) := by
    intro u n e
    cases u <;> cases n <;> simp
  simp only [RepeatedField.buildChecks, hu, hstep, join_pair_isSome]

/-- Joining on a non-nil error keeps the result non-nil. -/
theorem join_isSome_keeps (e f : Option GoError) (h : e.isSome = true) :
    (if f.isSome = true then errors_Join [e, f] else e).isSome = true := by
  cases f with
  | none => simpa using h
  | some v => simp [join_pair_isSome]

/-- An error found by the structural checks makes `Build` fail. -/
theorem Build_err_of_checks (H : Helpers) (b : RepeatedField) (fieldNr : Nat)
    (imports : ImportSet) (h : (b.buildChecks fieldNr imports).2.isSome = true) :
    (b.Build H fieldNr imports).2.isSome = true := by
  rw [Build_err]
  unfold RepeatedField.buildMerge
  apply join_isSome_keeps
  unfold RepeatedField.buildRuleOption
  by_cases hr : (b.buildChecks fieldNr imports).1.Rules.length > 0
  · simp only [hr, if_true]
    exact join_isSome_keeps _ _ h
  · simpa only [hr, if_false] using h

/-- Joining a helper's error onto the running error: the result is non-nil
exactly when one of the two is. -/
theorem join_if_isSome (e f : Option GoError) :
    (if f.isSome = true then errors_Join [e, f] else e).isSome = (e.isSome || f.isSome) := by
  cases f with
  | none => simp
  | some v => simp [join_pair_isSome]

/-- The list `Build` hands to the option merge (line 79): the copy of
`repeatedOptions`, followed by the promoted rules when there are any. -/
theorem buildRuleOption_list (H : Helpers) (b : RepeatedField) (fieldNr : Nat)
    (imports : ImportSet) :
    (b.buildRuleOption H fieldNr imports).1 =
      if (b.field.Build fieldNr imports).1.Rules.length > 0 then
        b.ProtoField.repeatedOptions ++
          [itemsPrefix ++
            (H.formatProtoValue (promotedRules (b.field.Build fieldNr imports).1)).1]
      else b.ProtoField.repeatedOptions := by
  unfold RepeatedField.buildRuleOption
  by_cases hr : (b.buildChecks fieldNr imports).1.Rules.length > 0
  · have hr2 : (b.field.Build fieldNr imports).1.Rules.length > 0 := hr
    simp only [hr, hr2, if_true]
    rfl
  · have hr2 : ¬ (b.field.Build fieldNr imports).1.Rules.length > 0 := hr
    simp only [hr, hr2, if_false]

/-- The option list `Build` computes is what the option merge returns. -/
theorem buildMerge_list (H : Helpers) (b : RepeatedField) (fieldNr : Nat)
    (imports : ImportSet) :
    (b.buildMerge H fieldNr imports).1 =
      (H.getOptions b.ProtoField.options (b.buildRuleOption H fieldNr imports).1).1 := rfl

/-- The error `Build` returns is non-nil exactly when one of its seven causes
holds. -/
theorem Build_err_isSome (H : Helpers) (b : RepeatedField) (fieldNr : Nat)
    (imports : ImportSet) :
    (b.Build H fieldNr imports).2.isSome =
      ((b.field.Build fieldNr imports).2.isSome || b.ProtoField.errors.isSome ||
       (b.unique && (b.field.Build fieldNr imports).1.IsNonScalar) ||
       (b.field.Build fieldNr imports).1.IsMap ||
       (b.field.Build fieldNr imports).1.Repeated ||
       (decide ((b.field.Build fieldNr imports).1.Rules.length > 0) &&
         (H.formatProtoValue (promotedRules (b.field.Build fieldNr imports).1)).2.isSome) ||
       (H.getOptions b.ProtoField.options
         (b.buildRuleOption H fieldNr imports).1).2.isSome) := by
  have hrule : (b.buildRuleOption H fieldNr imports).2.isSome =
      ((b.buildChecks fieldNr imports).2.isSome ||
        (decide ((b.field.Build fieldNr imports).1.Rules.length > 0) &&
          (H.formatProtoValue (promotedRules (b.field.Build fieldNr imports).1)).2.isSome)) := by
    unfold RepeatedField.buildRuleOption
    by_cases hr : (b.buildChecks fieldNr imports).1.Rules.length > 0
    · have hr2 : (b.field.Build fieldNr imports).1.Rules.length > 0 := hr
      simp only [hr, hr2, if_true, join_if_isSome, decide_True, Bool.true_and]
      rfl
    · have hr2 : ¬ (b.field.Build fieldNr imports).1.Rules.length > 0 := hr
      simp only [hr, hr2, if_false, decide_False, Bool.false_and, Bool.or_false]
  rw [Build_err]
  unfold RepeatedField.buildMerge
  simp only [join_if_isSome, hrule, buildChecks_err_isSome]

/-! ## Fresh builders and their bounds -/

theorem errors_MinItems_MaxItems (name : String) (inner : FieldBuilder) (a b : Nat) :
    (((Repeated name inner).MinItems a).MaxItems b).ProtoField.errors =
      if a > b then errors_Join [none, fmt_Errorf boundsInversionMsg] else none := by
  simp [Repeated, RepeatedField.MinItems, RepeatedField.MaxItems]

theorem errors_MaxItems_MinItems (name : String) (inner : FieldBuilder) (a b : Nat) :
    (((Repeated name inner).MaxItems b).MinItems a).ProtoField.errors =
      if b < a then errors_Join [none, fmt_Errorf boundsInversionMsg] else none := by
  simp [Repeated, RepeatedField.MinItems, RepeatedField.MaxItems]

/-! ## Configuration calls keep the constructor's fields -/

theorem call_keeps (b : RepeatedField) (c : Call) :
    (b.call c).name = b.name ∧ (b.call c).field = b.field ∧
    (b.call c).ProtoField.goType = b.ProtoField.goType ∧
    (b.call c).ProtoField.repeatedOptions = b.ProtoField.repeatedOptions := by
  cases c <;> exact ⟨rfl, rfl, rfl, rfl⟩

theorem configure_keeps (calls : List Call) (b : RepeatedField) :
    (b.configure calls).name = b.name ∧ (b.configure calls).field = b.field ∧
    (b.configure calls).ProtoField.goType = b.ProtoField.goType ∧
    (b.configure calls).ProtoField.repeatedOptions = b.ProtoField.repeatedOptions := by
  induction calls generalizing b with
  | nil => exact ⟨rfl, rfl, rfl, rfl⟩
  | cons c rest ih =>
    have h1 := ih (b.call c)
    have h2 := call_keeps b c
    simp only [RepeatedField.configure, List.foldl_cons] at h1 ⊢
    exact ⟨h1.1.trans h2.1, h1.2.1.trans h2.2.1, h1.2.2.1.trans h2.2.2.1,
      h1.2.2.2.trans h2.2.2.2⟩

/-! ## Configuration errors only grow -/

/-- A configuration call leaves the recorded error as it is or joins the
bounds-inversion error onto it. -/
theorem call_errors (b : RepeatedField) (c : Call) :
    (b.call c).ProtoField.errors = b.ProtoField.errors ∨
    (b.call c).ProtoField.errors =
      errors_Join [b.ProtoField.errors, fmt_Errorf boundsInversionMsg] := by
  cases c with
  | Unique => exact Or.inl rfl
  | MinItems n =>
    cases hm : b.maxItems with
    | none => left; simp [RepeatedField.call, RepeatedField.MinItems, hm]
    | some m =>
      by_cases hlt : m < n
      · right; simp [RepeatedField.call, RepeatedField.MinItems, hm, hlt]
      · left; simp [RepeatedField.call, RepeatedField.MinItems, hm, hlt]
  | MaxItems n =>
    cases hm : b.minItems with
    | none => left; simp [RepeatedField.call, RepeatedField.MaxItems, hm]
    | some m =>
      by_cases hlt : m > n
      · right; simp [RepeatedField.call, RepeatedField.MaxItems, hm, hlt]
      · left; simp [RepeatedField.call, RepeatedField.MaxItems, hm, hlt]

/-- The messages recorded before a chain of configuration calls are the first
messages recorded after it. -/
theorem configure_errors_prefix (calls : List Call) (b : RepeatedField) :
    ∃ rest, errorLines (b.configure calls).ProtoField.errors =
      errorLines b.ProtoField.errors ++ rest := by
  induction calls generalizing b with
  | nil => exact ⟨[], by simp [RepeatedField.configure]⟩
  | cons c tail ih =>
    obtain ⟨r1, h1⟩ := ih (b.call c)
    simp only [RepeatedField.configure, List.foldl_cons] at h1 ⊢
    rcases call_errors b c with h | h
    · exact ⟨r1, by rw [h1, h]⟩
    · exact ⟨[boundsInversionMsg] ++ r1, by
        rw [h1, h, errorLines_join_pair, errorLines_fmt_Errorf, List.append_assoc]⟩

/-- A recorded configuration error stays non-nil through any chain of
configuration calls. -/
theorem configure_errors_isSome (calls : List Call) (b : RepeatedField)
    (h : b.ProtoField.errors.isSome = true) :
    (b.configure calls).ProtoField.errors.isSome = true := by
  induction calls generalizing b with
  | nil => simpa [RepeatedField.configure] using h
  | cons c tail ih =>
    have hc : (b.call c).ProtoField.errors.isSome = true := by
      rcases call_errors b c with h2 | h2
      · rw [h2]; exact h
      · rw [h2, join_pair_isSome, h]; rfl
    have := ih (b.call c) hc
    simpa only [RepeatedField.configure, List.foldl_cons] using this

/-! ## The last write to a bound -/

/-- The stored lower bound after a chain of calls: the argument of the most
recent `MinItems` call, or the bound stored before when there is none. -/
theorem configure_minItems (calls : List Call) (b : RepeatedField) :
    (b.configure calls).minItems =
      (match lastMinItems calls with
       | some n => some n
       | none => b.minItems) ∧
    (b.configure calls).ProtoField.options.get minItemsKey =
      (match lastMinItems calls with
       | some n => some (.uint n)
       | none => b.ProtoField.options.get minItemsKey) := by
  induction calls generalizing b with
  | nil => exact ⟨rfl, rfl⟩
  | cons c tail ih =>
    have h := ih (b.call c)
    simp only [RepeatedField.configure, List.foldl_cons] at h ⊢
    rw [h.1, h.2]
    cases ht : lastMinItems tail with
    | some n => simp [lastMinItems, ht]
    | none =>
      cases c with
      | Unique =>
        have hk : minItemsKey ≠ uniqueKey := by decide
        simp [lastMinItems, ht, RepeatedField.call, RepeatedField.Unique,
          GoMap.get_set_other _ _ _ _ hk]
      | MinItems n =>
        simp [lastMinItems, ht, RepeatedField.call, RepeatedField.MinItems,
          GoMap.get_set_same]
      | MaxItems n =>
        have hk : minItemsKey ≠ maxItemsKey := by decide
        simp [lastMinItems, ht, RepeatedField.call, RepeatedField.MaxItems,
          GoMap.get_set_other _ _ _ _ hk]

/-- The stored upper bound after a chain of calls: the argument of the most
recent `MaxItems` call, or the bound stored before when there is none. -/
theorem configure_maxItems (calls : List Call) (b : RepeatedField) :
    (b.configure calls).maxItems =
      (match lastMaxItems calls with
       | some n => some n
       | none => b.maxItems) ∧
    (b.configure calls).ProtoField.options.get maxItemsKey =
      (match lastMaxItems calls with
       | some n => some (.uint n)
       | none => b.ProtoField.options.get maxItemsKey) := by
  induction calls generalizing b with
  | nil => exact ⟨rfl, rfl⟩
  | cons c tail ih =>
    have h := ih (b.call c)
    simp only [RepeatedField.configure, List.foldl_cons] at h ⊢
    rw [h.1, h.2]
    cases ht : lastMaxItems tail with
    | some n => simp [lastMaxItems, ht]
    | none =>
      cases c with
      | Unique =>
        have hk : maxItemsKey ≠ uniqueKey := by decide
        simp [lastMaxItems, ht, RepeatedField.call, RepeatedField.Unique,
          GoMap.get_set_other _ _ _ _ hk]
      | MinItems n =>
        have hk : maxItemsKey ≠ minItemsKey := by decide
        simp [lastMaxItems, ht, RepeatedField.call, RepeatedField.MinItems,
          GoMap.get_set_other _ _ _ _ hk]
      | MaxItems n =>
        simp [lastMaxItems, ht, RepeatedField.call, RepeatedField.MaxItems,
          GoMap.get_set_same]

/-! ## What the error and the option list depend on -/

/-- The aggregated error and the list handed to the option merge are decided
by the inner error, four fields of the inner descriptor read by the checks and
the rule promotion, and the builder's `unique`, `errors`, `options` and
`repeatedOptions`. -/
theorem buildMerge_congr (H : Helpers) (b c : RepeatedField) (n k : Nat)
    (imp imq : ImportSet)
    (herr : (b.field.Build n imp).2 = (c.field.Build k imq).2)
    (hns : (b.field.Build n imp).1.IsNonScalar = (c.field.Build k imq).1.IsNonScalar)
    (hmap : (b.field.Build n imp).1.IsMap = (c.field.Build k imq).1.IsMap)
    (hrep : (b.field.Build n imp).1.Repeated = (c.field.Build k imq).1.Repeated)
    (hrules : (b.field.Build n imp).1.Rules = (c.field.Build k imq).1.Rules)
    (hbase : (b.field.Build n imp).1.ProtoBaseType = (c.field.Build k imq).1.ProtoBaseType)
    (hu : b.unique = c.unique)
    (he : b.ProtoField.errors = c.ProtoField.errors)
    (ho : b.ProtoField.options = c.ProtoField.options)
    (hro : b.ProtoField.repeatedOptions = c.ProtoField.repeatedOptions) :
    b.buildMerge H n imp = c.buildMerge H k imq := by
  have hchk : (b.buildChecks n imp).2 = (c.buildChecks k imq).2 := by
    simp only [RepeatedField.buildChecks, herr, hns, hmap, hrep, hu, he]
  have hrule : b.buildRuleOption H n imp = c.buildRuleOption H k imq := by
    have hr1 : (b.buildChecks n imp).1.Rules = (c.buildChecks k imq).1.Rules := hrules
    have hb1 : (b.buildChecks n imp).1.ProtoBaseType
        = (c.buildChecks k imq).1.ProtoBaseType := hbase
    simp only [RepeatedField.buildRuleOption, hchk, hr1, hb1, hro]
  simp only [RepeatedField.buildMerge, hrule, ho]

/-! ## Claims -/

/-- C1: `Build` returns either a non-nil error together with the zero-value
descriptor, or a nil error together with the populated descriptor (outer
name, `Repeated = true`, the merged options); and whenever the aggregated
error is non-nil, the result is the zero value together with that error. -/
theorem C1_build_all_or_nothing (H : Helpers) (b : RepeatedField) (fieldNr : Nat)
    (imports : ImportSet) :
    (((b.Build H fieldNr imports).2 ≠ none ∧
        (b.Build H fieldNr imports).1 = FieldData.zero) ∨
      ((b.Build H fieldNr imports).2 = none ∧
        (b.Build H fieldNr imports).1 =
          { Name := b.name, ProtoType := (b.field.Build fieldNr imports).1.ProtoType,
            GoType := b.ProtoField.goType,
            Optional := (b.field.Build fieldNr imports).1.Optional, FieldNr := fieldNr,
            Repeated := true, Required := false, IsMap := false, IsNonScalar := true,
            Options := (b.buildMerge H fieldNr imports).1, Rules := [],
            ProtoBaseType := "",
            MessageRef := (b.field.Build fieldNr imports).1.MessageRef })) ∧
    ((b.buildMerge H fieldNr imports).2 ≠ none →
      b.Build H fieldNr imports = (FieldData.zero, (b.buildMerge H fieldNr imports).2)) := by
  constructor
  · by_cases h : (b.Build H fieldNr imports).2 = none
    · exact Or.inr ⟨h, Build_data_of_ok H b fieldNr imports h⟩
    · exact Or.inl ⟨h, Build_data_of_err H b fieldNr imports h⟩
  · intro h
    unfold RepeatedField.Build
    cases hm : (b.buildMerge H fieldNr imports).2 with
    | none => exact absurd hm h
    | some e => simp [hm]

/-- C1, at a failing and at a succeeding input: an inverted pair of bounds
gives the zero descriptor with an error, a plain scalar field gives the
populated descriptor with no error. -/
theorem C1_build_all_or_nothing_witness :
    ((((Repeated "tags" (stubBuilder stringData none)).MinItems 5).MaxItems 1).Build
        specHelpers 3 []).2 ≠ none ∧
    ((((Repeated "tags" (stubBuilder stringData none)).MinItems 5).MaxItems 1).Build
        specHelpers 3 []).1 = FieldData.zero ∧
    ((Repeated "tags" (stubBuilder stringData none)).Build specHelpers 3 []).2 = none ∧
    ((Repeated "tags" (stubBuilder stringData none)).Build specHelpers 3 []).1.Repeated
      = true := by
  have h := C1_build_all_or_nothing specHelpers
    (((Repeated "tags" (stubBuilder stringData none)).MinItems 5).MaxItems 1) 3 []
  have hne : (RepeatedField.buildMerge specHelpers
      (((Repeated "tags" (stubBuilder stringData none)).MinItems 5).MaxItems 1) 3 []).2
      ≠ none :=
    ne_none_of_mem_errorLines (m := boundsInversionMsg) (by decide)
  refine ⟨?_, congrArg Prod.fst (h.2 hne), rfl, rfl⟩
  rw [h.2 hne]
  exact hne

/-- C2: on a fresh builder, `MinItems(a)` and `MaxItems(b)` with `b < a`, in
either call order, make `Build` fail with the zero descriptor and an error
that carries the bounds-inversion message, whatever the inner builder and the
helpers return. -/
theorem C2_inverted_bounds_fail (H : Helpers) (name : String) (inner : FieldBuilder)
    (a b : Nat) (hlt : b < a) (fieldNr : Nat) (imports : ImportSet) :
    ((((Repeated name inner).MinItems a).MaxItems b).Build H fieldNr imports).2 ≠ none ∧
    boundsInversionMsg ∈ errorLines
      ((((Repeated name inner).MinItems a).MaxItems b).Build H fieldNr imports).2 ∧
    ((((Repeated name inner).MinItems a).MaxItems b).Build H fieldNr imports).1
      = FieldData.zero ∧
    ((((Repeated name inner).MaxItems b).MinItems a).Build H fieldNr imports).2 ≠ none ∧
    boundsInversionMsg ∈ errorLines
      ((((Repeated name inner).MaxItems b).MinItems a).Build H fieldNr imports).2 ∧
    ((((Repeated name inner).MaxItems b).MinItems a).Build H fieldNr imports).1
      = FieldData.zero := by
  have h1 : boundsInversionMsg ∈ errorLines
      ((((Repeated name inner).MinItems a).MaxItems b).Build H fieldNr imports).2 := by
    rw [Build_lines, errors_MinItems_MaxItems, if_pos hlt, errorLines_join_pair,
      errorLines_fmt_Errorf]
    simp
  have h2 : boundsInversionMsg ∈ errorLines
      ((((Repeated name inner).MaxItems b).MinItems a).Build H fieldNr imports).2 := by
    rw [Build_lines, errors_MaxItems_MinItems, if_pos hlt, errorLines_join_pair,
      errorLines_fmt_Errorf]
    simp
  exact ⟨ne_none_of_mem_errorLines h1, h1,
    Build_data_of_err _ _ _ _ (ne_none_of_mem_errorLines h1),
    ne_none_of_mem_errorLines h2, h2,
    Build_data_of_err _ _ _ _ (ne_none_of_mem_errorLines h2)⟩

/-- C2 at `MinItems(5)`, `MaxItems(3)` over a plain scalar field. -/
theorem C2_inverted_bounds_fail_witness :
    3 < 5 ∧
    boundsInversionMsg ∈ errorLines
      ((((Repeated "tags" (stubBuilder stringData none)).MinItems 5).MaxItems 3).Build
        specHelpers 1 []).2 ∧
    boundsInversionMsg ∈ errorLines
      ((((Repeated "tags" (stubBuilder stringData none)).MaxItems 3).MinItems 5).Build
        specHelpers 1 []).2 :=
  have h := C2_inverted_bounds_fail specHelpers "tags" (stubBuilder stringData none) 5 3
    (by decide) 1 []
  ⟨by decide, h.2.1, h.2.2.2.2.1⟩

/-- C3 (as amended): if the inner descriptor is non-scalar, `Unique()` followed
by `Build` yields an error carrying the unique/non-scalar message. If the inner
descriptor is scalar, `Build` adds no such message of its own, with or without
`Unique()`: the message is part of the error only when the inner builder's
error, the recorded configuration errors or the error of a helper carries it. -/
theorem C3_unique_non_scalar (H : Helpers) (b : RepeatedField) (fieldNr : Nat)
    (imports : ImportSet) :
    ((b.field.Build fieldNr imports).1.IsNonScalar = true →
      uniqueNonScalarMsg ∈ errorLines (b.Unique.Build H fieldNr imports).2 ∧
      (b.Unique.Build H fieldNr imports).2 ≠ none) ∧
    ((b.field.Build fieldNr imports).1.IsNonScalar = false →
      (uniqueNonScalarMsg ∈ errorLines (b.Build H fieldNr imports).2 ∨
        uniqueNonScalarMsg ∈ errorLines (b.Unique.Build H fieldNr imports).2) →
      uniqueNonScalarMsg ∈ errorLines (b.field.Build fieldNr imports).2 ∨
      uniqueNonScalarMsg ∈ errorLines b.ProtoField.errors ∨
      (∃ v, uniqueNonScalarMsg ∈ errorLines (H.formatProtoValue v).2) ∨
      (∃ m l, uniqueNonScalarMsg ∈ errorLines (H.getOptions m l).2)) := by
  have hm : uniqueNonScalarMsg ≠ mapRepeatedMsg := by decide
  have hn : uniqueNonScalarMsg ≠ nestedRepeatedMsg := by decide
  constructor
  · intro hns
    have hmem : uniqueNonScalarMsg ∈ errorLines (b.Unique.Build H fieldNr imports).2 := by
      rw [Build_lines]
      have hu : b.Unique.unique = true := rfl
      have hf : b.Unique.field = b.field := rfl
      simp [hu, hf, hns]
    exact ⟨hmem, ne_none_of_mem_errorLines hmem⟩
  · intro hns hmem
    have key : ∀ c : RepeatedField, c.field = b.field →
        c.ProtoField.errors = b.ProtoField.errors →
        uniqueNonScalarMsg ∈ errorLines (c.Build H fieldNr imports).2 →
        uniqueNonScalarMsg ∈ errorLines (b.field.Build fieldNr imports).2 ∨
        uniqueNonScalarMsg ∈ errorLines b.ProtoField.errors ∨
        (∃ v, uniqueNonScalarMsg ∈ errorLines (H.formatProtoValue v).2) ∨
        (∃ m l, uniqueNonScalarMsg ∈ errorLines (H.getOptions m l).2) := by
      intro c hf he hc
      rw [Build_lines, hf, he] at hc
      simp only [hns, List.mem_append] at hc
      rcases hc with ((((((h | h) | h) | h) | h) | h) | h)
      · exact Or.inl h
      · exact Or.inr (Or.inl h)
      · simp at h
      · split at h
        · exact absurd (List.mem_singleton.mp h) hm
        · simp at h
      · split at h
        · exact absurd (List.mem_singleton.mp h) hn
        · simp at h
      · split at h
        · exact Or.inr (Or.inr (Or.inl ⟨_, h⟩))
        · simp at h
      · exact Or.inr (Or.inr (Or.inr ⟨_, _, h⟩))
    rcases hmem with h | h
    · exact key b rfl rfl h
    · exact key b.Unique rfl rfl h

/-- C3 as amended, at a message-typed inner field (the message appears after
`Unique()`) and at a plain scalar inner field (nothing carries the message,
so it cannot be part of the error). -/
theorem C3_unique_non_scalar_witness :
    uniqueNonScalarMsg ∈ errorLines
      ((Repeated "tags" (stubBuilder messageData none)).Unique.Build specHelpers 1 []).2 ∧
    uniqueNonScalarMsg ∉ errorLines
      ((Repeated "tags" (stubBuilder stringData none)).Unique.Build specHelpers 1 []).2 := by
  constructor
  · exact ((C3_unique_non_scalar specHelpers (Repeated "tags" (stubBuilder messageData none))
      1 []).1 rfl).1
  · intro h
    have h2 := (C3_unique_non_scalar specHelpers (Repeated "tags" (stubBuilder stringData none))
      1 []).2 rfl (Or.inr h)
    rcases h2 with h2 | h2 | ⟨v, h2⟩ | ⟨m, l, h2⟩
    · exact absurd h2 (by decide)
    · exact absurd h2 (by decide)
    · simp [specHelpers, specFormatProtoValue, errorLines] at h2
    · simp [specHelpers, specGetOptions, errorLines] at h2

/-- C3, the claim as stated fails: a repeated builder over a message field
with `Unique()` fails and hands back the zero descriptor, which is scalar
(`IsNonScalar = false`); wrapped once more, without `Unique()`, the outer
`Build` returns an error that carries the unique/non-scalar message. -/
theorem C3_scalar_descriptor_counterexample :
    (((Repeated "tags" (stubBuilder messageData none)).Unique.asFieldBuilder
        specHelpers).Build 1 []).1.IsNonScalar = false ∧
    (Repeated "outer" ((Repeated "tags" (stubBuilder messageData none)).Unique.asFieldBuilder
        specHelpers)).unique = false ∧
    uniqueNonScalarMsg ∈ errorLines
      ((Repeated "outer" ((Repeated "tags" (stubBuilder messageData none)).Unique.asFieldBuilder
        specHelpers)).Build specHelpers 1 []).2 := by
  refine ⟨by decide, rfl, by decide⟩

/-- C4: when the inner descriptor is a map, `Build` fails: it returns a
non-nil error carrying the map message, and the zero descriptor, for every
state of the repeated builder and every other field of the inner descriptor. -/
theorem C4_map_inner_fails (H : Helpers) (b : RepeatedField) (fieldNr : Nat)
    (imports : ImportSet) (hmap : (b.field.Build fieldNr imports).1.IsMap = true) :
    (b.Build H fieldNr imports).2 ≠ none ∧
    mapRepeatedMsg ∈ errorLines (b.Build H fieldNr imports).2 ∧
    (b.Build H fieldNr imports).1 = FieldData.zero := by
  have hmem : mapRepeatedMsg ∈ errorLines (b.Build H fieldNr imports).2 := by
    rw [Build_lines]
    simp [hmap]
  exact ⟨ne_none_of_mem_errorLines hmem, hmem,
    Build_data_of_err _ _ _ _ (ne_none_of_mem_errorLines hmem)⟩

/-- C4 at a map-typed inner field, with bounds and `Unique()` configured. -/
theorem C4_map_inner_fails_witness :
    (((Repeated "tags" (stubBuilder mapData none)).MinItems 1).Unique.Build
      specHelpers 2 []).2 ≠ none :=
  (C4_map_inner_fails specHelpers ((Repeated "tags" (stubBuilder mapData none)).MinItems 1).Unique
    2 [] rfl).1

/-- C5: when the inner descriptor is itself repeated, `Build` fails: it
returns a non-nil error carrying the nesting message, and the zero descriptor,
for every state of the repeated builder. -/
theorem C5_repeated_inner_fails (H : Helpers) (b : RepeatedField) (fieldNr : Nat)
    (imports : ImportSet) (hrep : (b.field.Build fieldNr imports).1.Repeated = true) :
    (b.Build H fieldNr imports).2 ≠ none ∧
    nestedRepeatedMsg ∈ errorLines (b.Build H fieldNr imports).2 ∧
    (b.Build H fieldNr imports).1 = FieldData.zero := by
  have hmem : nestedRepeatedMsg ∈ errorLines (b.Build H fieldNr imports).2 := by
    rw [Build_lines]
    simp [hrep]
  exact ⟨ne_none_of_mem_errorLines hmem, hmem,
    Build_data_of_err _ _ _ _ (ne_none_of_mem_errorLines hmem)⟩

/-- C5 at an inner builder that is a successfully built repeated field. -/
theorem C5_repeated_inner_fails_witness :
    ((Repeated "outer" ((Repeated "tags" (stubBuilder stringData none)).asFieldBuilder
      specHelpers)).Build specHelpers 2 []).2 ≠ none :=
  (C5_repeated_inner_fails specHelpers
    (Repeated "outer" ((Repeated "tags" (stubBuilder stringData none)).asFieldBuilder
      specHelpers)) 2 [] rfl).1

/-- C6, the code at the failing input: over an inner `string` field marked
optional and with nothing else configured, `Build` prints that it ignores
`optional`, succeeds, and the returned descriptor still has `Optional = true`;
on every successful `Build` the returned `Optional` is the inner descriptor's. -/
theorem C6_optional_kept_at_input :
    Diagnostic.ignoringOptional "tags" ∈
      (Repeated "tags" (stubBuilder optionalData none)).buildDiagnostics 3 [] ∧
    ((Repeated "tags" (stubBuilder optionalData none)).Build specHelpers 3 []).2 = none ∧
    ((Repeated "tags" (stubBuilder optionalData none)).Build specHelpers 3 []).1.Optional
      = true ∧
    (∀ (H : Helpers) (b : RepeatedField) (fieldNr : Nat) (imports : ImportSet),
      (b.Build H fieldNr imports).2 = none →
      (b.Build H fieldNr imports).1.Optional = (b.field.Build fieldNr imports).1.Optional) := by
  refine ⟨by decide, rfl, rfl, ?_⟩
  intro H b fieldNr imports hok
  rw [Build_data_of_ok H b fieldNr imports hok]

/-- C7 (as amended): over an inner descriptor carrying the rules
`pattern: "^a"` with base type `string`, no error and nothing else configured,
`Build` succeeds when the serializer returns `s` for the nested mapping and
the option merge hands back the list it is given for an empty option map; the
returned option list has exactly one entry, the text
`(buf.validate.field).repeated.items = ` followed by `s`, and that entry is
not `s` itself. -/
theorem C7_pattern_rule_option (H : Helpers) (name : String) (inner : FieldBuilder)
    (fieldNr : Nat) (imports : ImportSet) (s : String)
    (hok : (inner.Build fieldNr imports).2 = none)
    (hrules : (inner.Build fieldNr imports).1.Rules = [("pattern", .str "^a")])
    (hbase : (inner.Build fieldNr imports).1.ProtoBaseType = "string")
    (hmap : (inner.Build fieldNr imports).1.IsMap = false)
    (hrep : (inner.Build fieldNr imports).1.Repeated = false)
    (hfmt : H.formatProtoValue (.map [("string", .map [("pattern", .str "^a")])])
      = (s, none))
    (hopt : H.getOptions [] [itemsPrefix ++ s] = ([itemsPrefix ++ s], none)) :
    ((Repeated name inner).Build H fieldNr imports).2 = none ∧
    ((Repeated name inner).Build H fieldNr imports).1.Options = [itemsPrefix ++ s] ∧
    ((Repeated name inner).Build H fieldNr imports).1.Options ≠ [s] := by
  have hcopy : maps_Copy [] [("pattern", Value.str "^a")] = [("pattern", Value.str "^a")] :=
    rfl
  have hset : ∀ v : Value, GoMap.set [] "string" v = [("string", v)] := fun _ => rfl
  have hrule : (Repeated name inner).buildRuleOption H fieldNr imports
      = ([itemsPrefix ++ s], none) := by
    simp [RepeatedField.buildRuleOption, RepeatedField.buildChecks, Repeated, hok, hrules,
      hbase, hmap, hrep, hcopy, hset, hfmt, errors_Join]
  have hmerge : (Repeated name inner).buildMerge H fieldNr imports
      = ([itemsPrefix ++ s], none) := by
    have ho : (Repeated name inner).ProtoField.options = [] := rfl
    simp [RepeatedField.buildMerge, hrule, ho, hopt]
  have herr : ((Repeated name inner).Build H fieldNr imports).2 = none := by
    rw [Build_err, hmerge]
  have hopts : ((Repeated name inner).Build H fieldNr imports).1.Options
      = [itemsPrefix ++ s] := by
    rw [Build_data_of_ok _ _ _ _ herr, hmerge]
  refine ⟨herr, hopts, ?_⟩
  rw [hopts]
  intro h
  have hlen := congrArg String.length (List.head_eq_of_cons_eq h)
  rw [String.length_append] at hlen
  have hpos : 0 < itemsPrefix.length := by decide
  omega

/-- C7 as amended, with the helpers modelled from the spec. -/
theorem C7_pattern_rule_option_witness :
    ((Repeated "tags" (stubBuilder patternData none)).Build specHelpers 3 []).2 = none ∧
    ((Repeated "tags" (stubBuilder patternData none)).Build specHelpers 3 []).1.Options
      = [itemsPrefix ++ renderValue (.map [("string", .map [("pattern", .str "^a")])])] :=
  have h := C7_pattern_rule_option specHelpers "tags" (stubBuilder patternData none) 3 []
    (renderValue (.map [("string", .map [("pattern", .str "^a")])]))
    rfl rfl rfl rfl rfl rfl rfl
  ⟨h.1, h.2.1⟩

/-- C7, the claim as stated fails: with the helpers modelled from the spec,
`Build` succeeds on the `pattern: "^a"` rules and returns one option, which is
the key `(buf.validate.field).repeated.items = ` followed by the serialized
mapping, not the serialized mapping itself. -/
theorem C7_entry_is_not_bare_counterexample :
    ((Repeated "tags" (stubBuilder patternData none)).Build specHelpers 3 []).2 = none ∧
    ((Repeated "tags" (stubBuilder patternData none)).Build specHelpers 3 []).1.Options
      = ["(buf.validate.field).repeated.items = " ++
          (specHelpers.formatProtoValue
            (.map [("string", .map [("pattern", .str "^a")])])).1] ∧
    ((Repeated "tags" (stubBuilder patternData none)).Build specHelpers 3 []).1.Options
      ≠ [(specHelpers.formatProtoValue
            (.map [("string", .map [("pattern", .str "^a")])])).1] := by
  refine ⟨rfl, rfl, by decide⟩

/-- C9: whenever `Build` succeeds on a builder made by `Repeated(name, inner)`
and configured by any calls of `Unique`, `MinItems`, `MaxItems`, the returned
descriptor has the outer name, the inner descriptor's `ProtoType`, `GoType`
equal to `[]` followed by the inner builder's type name, `Repeated = true`,
`IsNonScalar = true`, the option list returned by the option merge, the field
number it was given, and the inner descriptor's `MessageRef`. -/
theorem C9_success_descriptor (H : Helpers) (name : String) (inner : FieldBuilder)
    (calls : List Call) (fieldNr : Nat) (imports : ImportSet)
    (hok : (((Repeated name inner).configure calls).Build H fieldNr imports).2 = none) :
    (((Repeated name inner).configure calls).Build H fieldNr imports).1.Name = name ∧
    (((Repeated name inner).configure calls).Build H fieldNr imports).1.ProtoType
      = (inner.Build fieldNr imports).1.ProtoType ∧
    (((Repeated name inner).configure calls).Build H fieldNr imports).1.GoType
      = "[]" ++ inner.GetGoType ∧
    (((Repeated name inner).configure calls).Build H fieldNr imports).1.Repeated = true ∧
    (((Repeated name inner).configure calls).Build H fieldNr imports).1.IsNonScalar = true ∧
    (((Repeated name inner).configure calls).Build H fieldNr imports).1.Options
      = (H.getOptions ((Repeated name inner).configure calls).ProtoField.options
          (((Repeated name inner).configure calls).buildRuleOption H fieldNr imports).1).1 ∧
    (((Repeated name inner).configure calls).Build H fieldNr imports).1.FieldNr = fieldNr ∧
    (((Repeated name inner).configure calls).Build H fieldNr imports).1.MessageRef
      = (inner.Build fieldNr imports).1.MessageRef := by
  have hk := configure_keeps calls (Repeated name inner)
  rw [Build_data_of_ok _ _ _ _ hok, hk.1, hk.2.1, hk.2.2.1]
  exact ⟨rfl, rfl, rfl, rfl, rfl, rfl, rfl, rfl⟩

/-- C9 over an inner message field named `inner`, after `MinItems(1)` and
`MaxItems(5)`: the outer name, the inner wire type and message reference. -/
theorem C9_success_descriptor_witness :
    (((Repeated "tags" (stubBuilder messageData none)).configure
        [.MinItems 1, .MaxItems 5]).Build specHelpers 7 []).1.Name = "tags" ∧
    (((Repeated "tags" (stubBuilder messageData none)).configure
        [.MinItems 1, .MaxItems 5]).Build specHelpers 7 []).1.ProtoType = "Msg" ∧
    (((Repeated "tags" (stubBuilder messageData none)).configure
        [.MinItems 1, .MaxItems 5]).Build specHelpers 7 []).1.GoType = "[]*Msg" ∧
    (((Repeated "tags" (stubBuilder messageData none)).configure
        [.MinItems 1, .MaxItems 5]).Build specHelpers 7 []).1.MessageRef = some "Msg" :=
  have h := C9_success_descriptor specHelpers "tags" (stubBuilder messageData none)
    [.MinItems 1, .MaxItems 5] 7 [] rfl
  ⟨h.1, h.2.1, h.2.2.1, h.2.2.2.2.2.2.2⟩

/-- C10: the error `Build` returns aggregates every applicable cause. Every
message of the inner builder's error and of the accumulated configuration
errors is in it; it carries the unique/non-scalar message when `Unique` was
requested and the inner descriptor is non-scalar, the map message when the
inner descriptor is a map, and the nesting message when it is repeated, each
whatever the other conditions are; it is non-nil as soon as the inner error or
the configuration error is non-nil; and its messages are exactly those of the
causes, in the order the code checks them, followed by the helpers' messages. -/
theorem C10_all_causes_aggregated (H : Helpers) (b : RepeatedField) (fieldNr : Nat)
    (imports : ImportSet) :
    (∀ m, m ∈ errorLines (b.field.Build fieldNr imports).2 →
      m ∈ errorLines (b.Build H fieldNr imports).2) ∧
    (∀ m, m ∈ errorLines b.ProtoField.errors →
      m ∈ errorLines (b.Build H fieldNr imports).2) ∧
    (b.unique = true → (b.field.Build fieldNr imports).1.IsNonScalar = true →
      uniqueNonScalarMsg ∈ errorLines (b.Build H fieldNr imports).2) ∧
    ((b.field.Build fieldNr imports).1.IsMap = true →
      mapRepeatedMsg ∈ errorLines (b.Build H fieldNr imports).2) ∧
    ((b.field.Build fieldNr imports).1.Repeated = true →
      nestedRepeatedMsg ∈ errorLines (b.Build H fieldNr imports).2) ∧
    ((b.field.Build fieldNr imports).2 ≠ none ∨ b.ProtoField.errors ≠ none →
      (b.Build H fieldNr imports).2 ≠ none) ∧
    (∃ rest,
      errorLines (b.Build H fieldNr imports).2 =
        errorLines (b.field.Build fieldNr imports).2 ++ errorLines b.ProtoField.errors ++
        (if b.unique = true ∧ (b.field.Build fieldNr imports).1.IsNonScalar = true
          then [uniqueNonScalarMsg] else []) ++
        (if (b.field.Build fieldNr imports).1.IsMap = true then [mapRepeatedMsg] else []) ++
        (if (b.field.Build fieldNr imports).1.Repeated = true
          then [nestedRepeatedMsg] else []) ++ rest) := by
  refine ⟨?_, ?_, ?_, ?_, ?_, ?_, ?_⟩
  · intro m hm
    rw [Build_lines]
    simp [hm]
  · intro m hm
    rw [Build_lines]
    simp [hm]
  · intro hu hns
    rw [Build_lines]
    simp [hu, hns]
  · intro hmap
    rw [Build_lines]
    simp [hmap]
  · intro hrep
    rw [Build_lines]
    simp [hrep]
  · intro h
    have hs : (b.buildChecks fieldNr imports).2.isSome = true := by
      rw [buildChecks_err_isSome]
      rcases h with h | h
      · simp [Option.isSome_iff_ne_none.mpr h]
      · simp [Option.isSome_iff_ne_none.mpr h]
    exact Option.isSome_iff_ne_none.mp (Build_err_of_checks H b fieldNr imports hs)
  · exact ⟨_, (Build_lines H b fieldNr imports).trans (List.append_assoc _ _ _)⟩

/-- C10 with all causes at once: an inner builder that returns a non-scalar,
map, repeated descriptor together with an error of its own, under a builder
with an inverted pair of bounds and `Unique()`; the five messages are all in
the error `Build` returns. -/
theorem C10_all_causes_aggregated_witness :
    "inner failed" ∈ errorLines
      ((((Repeated "tags" (stubBuilder { mapData with Repeated := true }
          (fmt_Errorf "inner failed"))).MinItems 5).MaxItems 3).Unique.Build
        specHelpers 1 []).2 ∧
    boundsInversionMsg ∈ errorLines
      ((((Repeated "tags" (stubBuilder { mapData with Repeated := true }
          (fmt_Errorf "inner failed"))).MinItems 5).MaxItems 3).Unique.Build
        specHelpers 1 []).2 ∧
    uniqueNonScalarMsg ∈ errorLines
      ((((Repeated "tags" (stubBuilder { mapData with Repeated := true }
          (fmt_Errorf "inner failed"))).MinItems 5).MaxItems 3).Unique.Build
        specHelpers 1 []).2 ∧
    mapRepeatedMsg ∈ errorLines
      ((((Repeated "tags" (stubBuilder { mapData with Repeated := true }
          (fmt_Errorf "inner failed"))).MinItems 5).MaxItems 3).Unique.Build
        specHelpers 1 []).2 ∧
    nestedRepeatedMsg ∈ errorLines
      ((((Repeated "tags" (stubBuilder { mapData with Repeated := true }
          (fmt_Errorf "inner failed"))).MinItems 5).MaxItems 3).Unique.Build
        specHelpers 1 []).2 :=
  have h := C10_all_causes_aggregated specHelpers
    (((Repeated "tags" (stubBuilder { mapData with Repeated := true }
      (fmt_Errorf "inner failed"))).MinItems 5).MaxItems 3).Unique 1 []
  ⟨h.1 _ (by decide), h.2.1 _ (by decide), h.2.2.1 rfl rfl, h.2.2.2.1 rfl, h.2.2.2.2.1 rfl⟩

/-- C11: soft warnings never block success. When the inner builder returns no
error, no configuration error is recorded, none of the three structural checks
applies and the two helpers report no error, `Build` returns a nil error
whatever the `Required` and `Optional` flags of the inner descriptor are; the
returned descriptor has `Required = false`, and the flags that are set are
only reported by a printed diagnostic. -/
theorem C11_soft_warnings_do_not_block (H : Helpers) (b : RepeatedField) (fieldNr : Nat)
    (imports : ImportSet)
    (hinner : (b.field.Build fieldNr imports).2 = none)
    (hconf : b.ProtoField.errors = none)
    (huniq : ¬ (b.unique = true ∧ (b.field.Build fieldNr imports).1.IsNonScalar = true))
    (hmap : (b.field.Build fieldNr imports).1.IsMap = false)
    (hrep : (b.field.Build fieldNr imports).1.Repeated = false)
    (hfmt : (b.field.Build fieldNr imports).1.Rules.length > 0 →
      (H.formatProtoValue (promotedRules (b.field.Build fieldNr imports).1)).2 = none)
    (hopt : (H.getOptions b.ProtoField.options
      (b.buildRuleOption H fieldNr imports).1).2 = none) :
    (b.Build H fieldNr imports).2 = none ∧
    (b.Build H fieldNr imports).1.Required = false ∧
    (b.Build H fieldNr imports).1.Repeated = true ∧
    ((b.field.Build fieldNr imports).1.Required = true →
      Diagnostic.ignoringRequired b.name ∈ b.buildDiagnostics fieldNr imports) ∧
    ((b.field.Build fieldNr imports).1.Optional = true →
      Diagnostic.ignoringOptional b.name ∈ b.buildDiagnostics fieldNr imports) := by
  have herr : (b.Build H fieldNr imports).2 = none := by
    have hs := Build_err_isSome H b fieldNr imports
    have hu : (b.unique && (b.field.Build fieldNr imports).1.IsNonScalar) = false := by
      cases hb : b.unique <;> cases hn : (b.field.Build fieldNr imports).1.IsNonScalar <;>
        simp_all
    have hf : (decide ((b.field.Build fieldNr imports).1.Rules.length > 0) &&
        (H.formatProtoValue (promotedRules (b.field.Build fieldNr imports).1)).2.isSome)
        = false := by
      by_cases hr : (b.field.Build fieldNr imports).1.Rules.length > 0
      · simp [hfmt hr]
      · simp [hr]
    rw [hinner, hconf, hu, hmap, hrep, hf, hopt] at hs
    cases hb : (b.Build H fieldNr imports).2 with
    | none => rfl
    | some e => rw [hb] at hs; simp at hs
  rw [Build_data_of_ok H b fieldNr imports herr]
  refine ⟨herr, rfl, rfl, ?_, ?_⟩
  · intro hreq
    simp [RepeatedField.buildDiagnostics, hreq]
  · intro hopt2
    simp [RepeatedField.buildDiagnostics, hopt2]

/-- C11 over an inner `string` field marked required: `Build` succeeds and the
returned descriptor is not required. -/
theorem C11_soft_warnings_do_not_block_witness :
    ((Repeated "tags" (stubBuilder requiredData none)).Build specHelpers 3 []).2 = none ∧
    ((Repeated "tags" (stubBuilder requiredData none)).Build specHelpers 3 []).1.Required
      = false ∧
    Diagnostic.ignoringRequired "tags" ∈
      (Repeated "tags" (stubBuilder requiredData none)).buildDiagnostics 3 [] :=
  have h := C11_soft_warnings_do_not_block specHelpers
    (Repeated "tags" (stubBuilder requiredData none)) 3 [] rfl rfl (by decide) rfl rfl
    (fun _ => rfl) rfl
  ⟨h.1, h.2.1, h.2.2.2.1 rfl⟩

/-- C12: a configuration error is permanent. Through any chain of `Unique`,
`MinItems` and `MaxItems` calls the messages already recorded stay the first
messages of the recorded error, a non-nil recorded error stays non-nil, and the
following `Build` fails: it returns the zero descriptor and an error that
carries every recorded message. -/
theorem C12_config_error_permanent (H : Helpers) (b : RepeatedField) (calls : List Call)
    (fieldNr : Nat) (imports : ImportSet) (hrec : b.ProtoField.errors ≠ none) :
    (∃ rest, errorLines (b.configure calls).ProtoField.errors =
      errorLines b.ProtoField.errors ++ rest) ∧
    (∀ m, m ∈ errorLines b.ProtoField.errors →
      m ∈ errorLines (b.configure calls).ProtoField.errors ∧
      m ∈ errorLines ((b.configure calls).Build H fieldNr imports).2) ∧
    (b.configure calls).ProtoField.errors ≠ none ∧
    ((b.configure calls).Build H fieldNr imports).2 ≠ none ∧
    ((b.configure calls).Build H fieldNr imports).1 = FieldData.zero := by
  obtain ⟨rest, hpre⟩ := configure_errors_prefix calls b
  have hsome : (b.configure calls).ProtoField.errors.isSome = true :=
    configure_errors_isSome calls b (Option.isSome_iff_ne_none.mpr hrec)
  have hfail : ((b.configure calls).Build H fieldNr imports).2 ≠ none := by
    apply Option.isSome_iff_ne_none.mp
    rw [Build_err_isSome, hsome]
    simp
  refine ⟨⟨rest, hpre⟩, ?_, Option.isSome_iff_ne_none.mp hsome, hfail,
    Build_data_of_err _ _ _ _ hfail⟩
  intro m hm
  have h1 : m ∈ errorLines (b.configure calls).ProtoField.errors := by
    rw [hpre]
    exact List.mem_append_left _ hm
  refine ⟨h1, ?_⟩
  rw [Build_lines]
  simp [h1]

/-- C12 at `MinItems(5)`, `MaxItems(3)`, then `MaxItems(10)`: the bounds are
consistent again, the inversion message is still recorded and `Build` fails. -/
theorem C12_config_error_permanent_witness :
    boundsInversionMsg ∈ errorLines
      ((((Repeated "tags" (stubBuilder stringData none)).MinItems 5).MaxItems 3).configure
        [.MaxItems 10]).ProtoField.errors ∧
    ((((Repeated "tags" (stubBuilder stringData none)).MinItems 5).MaxItems 3).configure
        [.MaxItems 10]).maxItems = some 10 ∧
    (((((Repeated "tags" (stubBuilder stringData none)).MinItems 5).MaxItems 3).configure
        [.MaxItems 10]).Build specHelpers 1 []).2 ≠ none :=
  have hrec : (((Repeated "tags" (stubBuilder stringData none)).MinItems 5).MaxItems
      3).ProtoField.errors ≠ none :=
    ne_none_of_mem_errorLines (m := boundsInversionMsg) (by decide)
  have h := C12_config_error_permanent specHelpers
    (((Repeated "tags" (stubBuilder stringData none)).MinItems 5).MaxItems 3)
    [.MaxItems 10] 1 [] hrec
  ⟨(h.2.1 boundsInversionMsg (by decide)).1, rfl, h.2.2.2.1⟩

/-- C13: in every state reached from `Repeated(name, inner)` by a chain of
`Unique`, `MinItems` and `MaxItems` calls, if both bounds are set and
`minItems > maxItems`, the recorded configuration error is non-nil and carries
the bounds-inversion message: the violation is in the builder before `Build`
runs. -/
theorem C13_inverted_bounds_recorded (name : String) (inner : FieldBuilder)
    (calls : List Call) (a m : Nat)
    (hmin : ((Repeated name inner).configure calls).minItems = some a)
    (hmax : ((Repeated name inner).configure calls).maxItems = some m)
    (hgt : a > m) :
    ((Repeated name inner).configure calls).ProtoField.errors ≠ none ∧
    boundsInversionMsg ∈
      errorLines ((Repeated name inner).configure calls).ProtoField.errors := by
  have inv : ∀ (cs : List Call) (b : RepeatedField),
      (∀ a m, b.minItems = some a → b.maxItems = some m → a > m →
        boundsInversionMsg ∈ errorLines b.ProtoField.errors) →
      ∀ a m, (b.configure cs).minItems = some a → (b.configure cs).maxItems = some m →
        a > m → boundsInversionMsg ∈ errorLines (b.configure cs).ProtoField.errors := by
    intro cs
    induction cs with
    | nil => intro b hb; simpa [RepeatedField.configure] using hb
    | cons c tail ih =>
      intro b hb
      have hstep : ∀ a m, (b.call c).minItems = some a → (b.call c).maxItems = some m →
          a > m → boundsInversionMsg ∈ errorLines (b.call c).ProtoField.errors := by
        intro a m h1 h2 h3
        cases c with
        | Unique => exact hb a m h1 h2 h3
        | MinItems n =>
          have hmx : b.maxItems = some m := h2
          have hn : n = a := by
            simpa [RepeatedField.call, RepeatedField.MinItems] using h1
          subst hn
          have hlt : m < n := h3
          simp [RepeatedField.call, RepeatedField.MinItems, hmx, hlt, errorLines_join_pair,
            errorLines_fmt_Errorf]
        | MaxItems n =>
          have hmn : b.minItems = some a := h1
          have hn : n = m := by
            simpa [RepeatedField.call, RepeatedField.MaxItems] using h2
          subst hn
          simp [RepeatedField.call, RepeatedField.MaxItems, hmn, h3, errorLines_join_pair,
            errorLines_fmt_Errorf]
      have := ih (b.call c) hstep
      simpa only [RepeatedField.configure, List.foldl_cons] using this
  have hmem := inv calls (Repeated name inner)
    (by intro a m h1; simp [Repeated] at h1) a m hmin hmax hgt
  exact ⟨ne_none_of_mem_errorLines hmem, hmem⟩

/-- C13 at `MinItems(5)`, `Unique()`, `MaxItems(3)`. -/
theorem C13_inverted_bounds_recorded_witness :
    ((Repeated "tags" (stubBuilder stringData none)).configure
      [.MinItems 5, .Unique, .MaxItems 3]).ProtoField.errors ≠ none :=
  (C13_inverted_bounds_recorded "tags" (stubBuilder stringData none)
    [.MinItems 5, .Unique, .MaxItems 3] 5 3 rfl rfl (by decide)).1

/-- C14: last write wins. After any chain of configuration calls on a fresh
builder, the stored `minItems` and the recorded `min_items` option are the
argument of the most recent `MinItems` call, and likewise `maxItems` and
`max_items` for `MaxItems`; the cross-check of a further call compares its
argument with the most recent value of the other bound only; and a method
called twice with the same argument, without inversion, leaves the state of a
single call. -/
theorem C14_last_write_wins (name : String) (inner : FieldBuilder) (calls : List Call)
    (n : Nat) :
    ((Repeated name inner).configure calls).minItems = lastMinItems calls ∧
    ((Repeated name inner).configure calls).ProtoField.options.get minItemsKey
      = (lastMinItems calls).map Value.uint ∧
    ((Repeated name inner).configure calls).maxItems = lastMaxItems calls ∧
    ((Repeated name inner).configure calls).ProtoField.options.get maxItemsKey
      = (lastMaxItems calls).map Value.uint ∧
    (((Repeated name inner).configure calls).MinItems n).ProtoField.errors =
      (match lastMaxItems calls with
       | some m =>
         if m < n then
           errors_Join [((Repeated name inner).configure calls).ProtoField.errors,
             fmt_Errorf boundsInversionMsg]
         else ((Repeated name inner).configure calls).ProtoField.errors
       | none => ((Repeated name inner).configure calls).ProtoField.errors) ∧
    (((Repeated name inner).configure calls).MaxItems n).ProtoField.errors =
      (match lastMinItems calls with
       | some m =>
         if m > n then
           errors_Join [((Repeated name inner).configure calls).ProtoField.errors,
             fmt_Errorf boundsInversionMsg]
         else ((Repeated name inner).configure calls).ProtoField.errors
       | none => ((Repeated name inner).configure calls).ProtoField.errors) ∧
    (∀ b : RepeatedField, (∀ m, b.maxItems = some m → ¬ m < n) →
      (b.MinItems n).MinItems n = b.MinItems n) ∧
    (∀ b : RepeatedField, (∀ m, b.minItems = some m → ¬ m > n) →
      (b.MaxItems n).MaxItems n = b.MaxItems n) ∧
    (∀ b : RepeatedField, b.Unique.Unique = b.Unique) := by
  have hmin := configure_minItems calls (Repeated name inner)
  have hmax := configure_maxItems calls (Repeated name inner)
  have h1 : ((Repeated name inner).configure calls).minItems = lastMinItems calls := by
    rw [hmin.1]; cases lastMinItems calls <;> rfl
  have h2 : ((Repeated name inner).configure calls).maxItems = lastMaxItems calls := by
    rw [hmax.1]; cases lastMaxItems calls <;> rfl
  refine ⟨h1, ?_, h2, ?_, ?_, ?_, ?_, ?_, ?_⟩
  · rw [hmin.2]; cases lastMinItems calls <;> rfl
  · rw [hmax.2]; cases lastMaxItems calls <;> rfl
  · simp only [RepeatedField.MinItems, h2]
  · simp only [RepeatedField.MaxItems, h1]
  · intro b hb
    cases hm : b.maxItems with
    | none => simp [RepeatedField.MinItems, hm, GoMap.set_set]
    | some m =>
      have := hb m hm
      simp [RepeatedField.MinItems, hm, this, GoMap.set_set]
  · intro b hb
    cases hm : b.minItems with
    | none => simp [RepeatedField.MaxItems, hm, GoMap.set_set]
    | some m =>
      have := hb m hm
      simp [RepeatedField.MaxItems, hm, this, GoMap.set_set]
  · intro b
    simp [RepeatedField.Unique, GoMap.set_set]

/-- C14 at `MinItems(1)`, `MaxItems(9)`, `MinItems(4)`, `MaxItems(6)`: the
stored bounds and the recorded options are 4 and 6, a further `MinItems(7)` is
checked against 6 and records an inversion, and `MinItems(4)` once more changes
nothing. -/
theorem C14_last_write_wins_witness :
    ((Repeated "tags" (stubBuilder stringData none)).configure
      [.MinItems 1, .MaxItems 9, .MinItems 4, .MaxItems 6]).minItems = some 4 ∧
    ((Repeated "tags" (stubBuilder stringData none)).configure
      [.MinItems 1, .MaxItems 9, .MinItems 4, .MaxItems 6]).ProtoField.options.get
      maxItemsKey = some (.uint 6) ∧
    boundsInversionMsg ∈ errorLines
      (((Repeated "tags" (stubBuilder stringData none)).configure
        [.MinItems 1, .MaxItems 9, .MinItems 4, .MaxItems 6]).MinItems 7).ProtoField.errors ∧
    (((Repeated "tags" (stubBuilder stringData none)).configure
        [.MinItems 1, .MaxItems 9, .MinItems 4, .MaxItems 6]).MinItems 4).MinItems 4
      = ((Repeated "tags" (stubBuilder stringData none)).configure
        [.MinItems 1, .MaxItems 9, .MinItems 4, .MaxItems 6]).MinItems 4 := by
  have h := C14_last_write_wins "tags" (stubBuilder stringData none)
    [.MinItems 1, .MaxItems 9, .MinItems 4, .MaxItems 6] 4
  have h7 := C14_last_write_wins "tags" (stubBuilder stringData none)
    [.MinItems 1, .MaxItems 9, .MinItems 4, .MaxItems 6] 7
  refine ⟨h.1, h.2.2.2.1, ?_, h.2.2.2.2.2.2.1 _ ?_⟩
  · rw [h7.2.2.2.2.1]
    decide
  · intro m hm
    have h6 : m = 6 := by
      have hm2 : some 6 = some m := hm
      exact (Option.some.inj hm2).symm
    omega

/-- C15: when the inner descriptor carries rules, `Build` nests a copy of them
under the single key `ProtoBaseType`, serializes that mapping, and appends
exactly one option, made of the key `(buf.validate.field).repeated.items = `
and the serialized text, to its copy of `repeatedOptions`; this list and the
option map that `Unique`, `MinItems` and `MaxItems` fill are what the option
merge receives. With the option merge modelled from the spec, a successful
`Build` returns the entries of the option map, then `repeatedOptions`, then
the promoted rules as the last option. -/
theorem C15_rule_option_after_local_options (H : Helpers) (b : RepeatedField)
    (fieldNr : Nat) (imports : ImportSet)
    (hrules : (b.field.Build fieldNr imports).1.Rules.length > 0) :
    promotedRules (b.field.Build fieldNr imports).1 =
      .map [((b.field.Build fieldNr imports).1.ProtoBaseType,
        .map (maps_Copy [] (b.field.Build fieldNr imports).1.Rules))] ∧
    (b.buildRuleOption H fieldNr imports).1 =
      b.ProtoField.repeatedOptions ++
        [itemsPrefix ++
          (H.formatProtoValue (promotedRules (b.field.Build fieldNr imports).1)).1] ∧
    (b.buildMerge H fieldNr imports).1 =
      (H.getOptions b.ProtoField.options
        (b.ProtoField.repeatedOptions ++
          [itemsPrefix ++
            (H.formatProtoValue (promotedRules (b.field.Build fieldNr imports).1)).1])).1 ∧
    ((b.Build specHelpers fieldNr imports).2 = none →
      (b.Build specHelpers fieldNr imports).1.Options =
        b.ProtoField.options.map (fun e => e.1 ++ " = " ++ renderValue e.2) ++
          b.ProtoField.repeatedOptions ++
          [itemsPrefix ++ renderValue (promotedRules (b.field.Build fieldNr imports).1)] ∧
      (b.Build specHelpers fieldNr imports).1.Options.getLast? =
        some (itemsPrefix ++
          renderValue (promotedRules (b.field.Build fieldNr imports).1))) := by
  have hlist : ∀ K : Helpers, (b.buildRuleOption K fieldNr imports).1 =
      b.ProtoField.repeatedOptions ++
        [itemsPrefix ++
          (K.formatProtoValue (promotedRules (b.field.Build fieldNr imports).1)).1] := by
    intro K
    rw [buildRuleOption_list, if_pos hrules]
  refine ⟨rfl, hlist H, by rw [buildMerge_list, hlist H], ?_⟩
  intro hok
  have hopts : (b.Build specHelpers fieldNr imports).1.Options =
      b.ProtoField.options.map (fun e => e.1 ++ " = " ++ renderValue e.2) ++
        b.ProtoField.repeatedOptions ++
        [itemsPrefix ++ renderValue (promotedRules (b.field.Build fieldNr imports).1)] := by
    rw [Build_data_of_ok _ _ _ _ hok]
    show (b.buildMerge specHelpers fieldNr imports).1 = _
    rw [buildMerge_list, hlist specHelpers]
    simp [specHelpers, specGetOptions, specFormatProtoValue]
  refine ⟨hopts, ?_⟩
  rw [hopts]
  simp

/-- C15 over an inner `string` field with the rule `pattern: "^a"`, after
`Unique()`, `MinItems(2)` and `MaxItems(8)`: the promoted rules are the last of
the four options. -/
theorem C15_rule_option_after_local_options_witness :
    (((Repeated "tags" (stubBuilder patternData none)).configure
      [.Unique, .MinItems 2, .MaxItems 8]).Build specHelpers 3 []).1.Options
      = ["(buf.validate.field).repeated.max_items = 8",
         "(buf.validate.field).repeated.min_items = 2",
         "(buf.validate.field).repeated.unique = true",
         itemsPrefix ++ renderValue (.map [("string", .map [("pattern", .str "^a")])])] :=
  (C15_rule_option_after_local_options specHelpers
    ((Repeated "tags" (stubBuilder patternData none)).configure
      [.Unique, .MinItems 2, .MaxItems 8]) 3 [] (by decide)).2.2.2 rfl |>.1

/-- C16: failures of the two helpers are folded into the aggregated error. If
the inner descriptor carries rules and their serialization returns an error,
or if the option merge returns an error, `Build` fails: it returns the zero
descriptor and an error that carries the messages of that failure together
with the messages of every error aggregated before. -/
theorem C16_helper_failures_folded (H : Helpers) (b : RepeatedField) (fieldNr : Nat)
    (imports : ImportSet)
    (hfail : ((b.field.Build fieldNr imports).1.Rules.length > 0 ∧
        (H.formatProtoValue (promotedRules (b.field.Build fieldNr imports).1)).2 ≠ none) ∨
      (H.getOptions b.ProtoField.options (b.buildRuleOption H fieldNr imports).1).2
        ≠ none) :
    (b.Build H fieldNr imports).2 ≠ none ∧
    (b.Build H fieldNr imports).1 = FieldData.zero ∧
    ((b.field.Build fieldNr imports).1.Rules.length > 0 →
      ∀ m, m ∈ errorLines
          (H.formatProtoValue (promotedRules (b.field.Build fieldNr imports).1)).2 →
        m ∈ errorLines (b.Build H fieldNr imports).2) ∧
    (∀ m, m ∈ errorLines
        (H.getOptions b.ProtoField.options (b.buildRuleOption H fieldNr imports).1).2 →
      m ∈ errorLines (b.Build H fieldNr imports).2) ∧
    (∀ m, m ∈ errorLines (b.buildChecks fieldNr imports).2 →
      m ∈ errorLines (b.Build H fieldNr imports).2) := by
  have hne : (b.Build H fieldNr imports).2 ≠ none := by
    apply Option.isSome_iff_ne_none.mp
    rw [Build_err_isSome]
    rcases hfail with ⟨hr, hf⟩ | ho
    · simp [hr, Option.isSome_iff_ne_none.mpr hf]
    · simp [Option.isSome_iff_ne_none.mpr ho]
  refine ⟨hne, Build_data_of_err _ _ _ _ hne, ?_, ?_, ?_⟩
  · intro hr m hm
    rw [Build_lines, if_pos hr]
    have hm2 : m ∈ errorLines (H.formatProtoValue (.map (GoMap.set []
        (b.field.Build fieldNr imports).1.ProtoBaseType
        (.map (maps_Copy [] (b.field.Build fieldNr imports).1.Rules))))).2 := hm
    simp [hm2]
  · intro m hm
    rw [Build_lines]
    simp [hm]
  · intro m hm
    rw [Build_err, buildMerge_lines]
    simp [hm]

/-- C16 with a failing serializer over an inner field that carries rules and
is a map, and with a failing option merge: each failure is in the error
`Build` returns, next to the map error found before. -/
theorem C16_helper_failures_folded_witness :
    "cannot format value" ∈ errorLines
      ((Repeated "tags" (stubBuilder { patternData with IsMap := true } none)).Build
        failingSerializer 1 []).2 ∧
    mapRepeatedMsg ∈ errorLines
      ((Repeated "tags" (stubBuilder { patternData with IsMap := true } none)).Build
        failingSerializer 1 []).2 ∧
    "cannot merge options" ∈ errorLines
      ((Repeated "tags" (stubBuilder stringData none)).Build failingMerge 1 []).2 ∧
    ((Repeated "tags" (stubBuilder stringData none)).Build failingMerge 1 []).1
      = FieldData.zero := by
  have h1 := C16_helper_failures_folded failingSerializer
    (Repeated "tags" (stubBuilder { patternData with IsMap := true } none)) 1 []
    (Or.inl ⟨by decide, ne_none_of_mem_errorLines (m := "cannot format value") (by decide)⟩)
  have h2 := C16_helper_failures_folded failingMerge
    (Repeated "tags" (stubBuilder stringData none)) 1 []
    (Or.inr (ne_none_of_mem_errorLines (m := "cannot merge options") (by decide)))
  exact ⟨h1.2.2.1 (by decide) _ (by decide), h1.2.2.2.2 _ (by decide),
    h2.2.2.2.1 _ (by decide), h2.2.1⟩

/-- C17: exact failure characterization. `Build` returns a non-nil error if
and only if the inner builder returned an error, or a configuration error is
recorded, or `Unique` was requested and the inner descriptor is non-scalar, or
the inner descriptor is a map, or it is repeated, or the inner rules are
non-empty and their serialization returned an error, or the option merge
returned an error. Moreover the result of the checks and the merge is the same
for two runs that agree on the inner error, on the fields `IsNonScalar`,
`IsMap`, `Repeated`, `Rules`, `ProtoBaseType` of the inner descriptor and on
the builder's `unique`, `errors`, `options`, `repeatedOptions`: the `Optional`
and `Required` flags, the stored bounds and the field number are not read. -/
theorem C17_failure_characterization (H : Helpers) (b : RepeatedField) (fieldNr : Nat)
    (imports : ImportSet) :
    ((b.Build H fieldNr imports).2 ≠ none ↔
      ((b.field.Build fieldNr imports).2 ≠ none ∨
       b.ProtoField.errors ≠ none ∨
       (b.unique = true ∧ (b.field.Build fieldNr imports).1.IsNonScalar = true) ∨
       (b.field.Build fieldNr imports).1.IsMap = true ∨
       (b.field.Build fieldNr imports).1.Repeated = true ∨
       ((b.field.Build fieldNr imports).1.Rules.length > 0 ∧
         (H.formatProtoValue (promotedRules (b.field.Build fieldNr imports).1)).2 ≠ none) ∨
       (H.getOptions b.ProtoField.options
         (b.buildRuleOption H fieldNr imports).1).2 ≠ none)) ∧
    (∀ (c : RepeatedField) (k : Nat) (imq : ImportSet),
      (b.field.Build fieldNr imports).2 = (c.field.Build k imq).2 →
      (b.field.Build fieldNr imports).1.IsNonScalar = (c.field.Build k imq).1.IsNonScalar →
      (b.field.Build fieldNr imports).1.IsMap = (c.field.Build k imq).1.IsMap →
      (b.field.Build fieldNr imports).1.Repeated = (c.field.Build k imq).1.Repeated →
      (b.field.Build fieldNr imports).1.Rules = (c.field.Build k imq).1.Rules →
      (b.field.Build fieldNr imports).1.ProtoBaseType
        = (c.field.Build k imq).1.ProtoBaseType →
      b.unique = c.unique →
      b.ProtoField.errors = c.ProtoField.errors →
      b.ProtoField.options = c.ProtoField.options →
      b.ProtoField.repeatedOptions = c.ProtoField.repeatedOptions →
      (b.Build H fieldNr imports).2 = (c.Build H k imq).2) := by
  constructor
  · rw [← Option.isSome_iff_ne_none, Build_err_isSome]
    simp only [Bool.or_eq_true, Bool.and_eq_true, decide_eq_true_eq,
      Option.isSome_iff_ne_none]
    tauto
  · intro c k imq h1 h2 h3 h4 h5 h6 h7 h8 h9 h10
    rw [Build_err, Build_err,
      buildMerge_congr H b c fieldNr k imports imq h1 h2 h3 h4 h5 h6 h7 h8 h9 h10]

/-- C17 at four inputs: a clean run succeeds although the inner field is
optional and bounds are stored; a failing option merge, an inner error and a
recorded configuration error each make `Build` fail. -/
theorem C17_failure_characterization_witness :
    ¬ ((((Repeated "tags" (stubBuilder optionalData none)).MinItems 1).MaxItems 5).Build
      specHelpers 9 []).2 ≠ none ∧
    ((Repeated "tags" (stubBuilder stringData none)).Build failingMerge 9 []).2 ≠ none ∧
    ((Repeated "tags" (stubBuilder stringData (fmt_Errorf "inner failed"))).Build
      specHelpers 9 []).2 ≠ none ∧
    ((((Repeated "tags" (stubBuilder stringData none)).MinItems 5).MaxItems 1).Build
      specHelpers 9 []).2 ≠ none := by
  refine ⟨?_, ?_, ?_, ?_⟩
  · intro h
    have h2 := (C17_failure_characterization specHelpers
      (((Repeated "tags" (stubBuilder optionalData none)).MinItems 1).MaxItems 5) 9 []).1.mp h
    rcases h2 with h2 | h2 | h2 | h2 | h2 | h2 | h2
    · exact h2 rfl
    · exact h2 rfl
    · exact absurd h2.1 (by decide)
    · exact absurd h2 (by decide)
    · exact absurd h2 (by decide)
    · exact absurd h2.1 (by decide)
    · exact h2 rfl
  · exact (C17_failure_characterization failingMerge
      (Repeated "tags" (stubBuilder stringData none)) 9 []).1.mpr
      (Or.inr (Or.inr (Or.inr (Or.inr (Or.inr (Or.inr
        (ne_none_of_mem_errorLines (m := "cannot merge options") (by decide))))))))
  · exact (C17_failure_characterization specHelpers
      (Repeated "tags" (stubBuilder stringData (fmt_Errorf "inner failed"))) 9 []).1.mpr
      (Or.inl (ne_none_of_mem_errorLines (m := "inner failed") (by decide)))
  · exact (C17_failure_characterization specHelpers
      (((Repeated "tags" (stubBuilder stringData none)).MinItems 5).MaxItems 1) 9 []).1.mpr
      (Or.inr (Or.inl (ne_none_of_mem_errorLines (m := boundsInversionMsg) (by decide))))

/-- C18: no false inversion error. On a fresh builder, `MinItems(a)` and
`MaxItems(b)` with `a ≤ b` record no configuration error in either call order;
for all `a` and `b` the pair of calls records an error exactly when `b < a`;
and both call orders reach the same builder. -/
theorem C18_no_false_inversion (name : String) (inner : FieldBuilder) (a b : Nat) :
    (a ≤ b →
      (((Repeated name inner).MinItems a).MaxItems b).ProtoField.errors = none ∧
      (((Repeated name inner).MaxItems b).MinItems a).ProtoField.errors = none) ∧
    ((((Repeated name inner).MinItems a).MaxItems b).ProtoField.errors ≠ none ↔ b < a) ∧
    ((((Repeated name inner).MaxItems b).MinItems a).ProtoField.errors ≠ none ↔ b < a) ∧
    ((Repeated name inner).MinItems a).MaxItems b
      = ((Repeated name inner).MaxItems b).MinItems a := by
  have hk : minItemsKey ≠ maxItemsKey := by decide
  have hj : errors_Join [none, fmt_Errorf boundsInversionMsg] ≠ none := by
    simp [errors_Join, fmt_Errorf]
  have e1 := errors_MinItems_MaxItems name inner a b
  have e2 := errors_MaxItems_MinItems name inner a b
  refine ⟨?_, ?_, ?_, ?_⟩
  · intro hle
    have h1 : ¬ a > b := by omega
    have h2 : ¬ b < a := by omega
    refine ⟨?_, ?_⟩
    · rw [e1, if_neg h1]
    · rw [e2, if_neg h2]
  · rw [e1]
    by_cases h : a > b
    · simp only [if_pos h]
      exact ⟨fun _ => h, fun _ => hj⟩
    · simp only [if_neg h]
      exact ⟨fun hne => absurd rfl hne, fun hlt => absurd hlt h⟩
  · rw [e2]
    by_cases h : b < a
    · simp only [if_pos h]
      exact ⟨fun _ => h, fun _ => hj⟩
    · simp only [if_neg h]
      exact ⟨fun hne => absurd rfl hne, fun hlt => absurd hlt h⟩
  · have hc := GoMap.set_comm [] minItemsKey maxItemsKey (.uint a) (.uint b) hk
    by_cases h : b < a
    · simp [Repeated, RepeatedField.MinItems, RepeatedField.MaxItems, h, hc]
    · simp [Repeated, RepeatedField.MinItems, RepeatedField.MaxItems, h, hc]

/-- C18 at equal bounds, `MinItems(4)` and `MaxItems(4)`: no error is recorded
in either call order. -/
theorem C18_no_false_inversion_witness :
    4 ≤ 4 ∧
    (((Repeated "tags" (stubBuilder stringData none)).MinItems 4).MaxItems
      4).ProtoField.errors = none ∧
    (((Repeated "tags" (stubBuilder stringData none)).MaxItems 4).MinItems
      4).ProtoField.errors = none :=
  have h := (C18_no_false_inversion "tags" (stubBuilder stringData none) 4 4).1 (by decide)
  ⟨by decide, h.1, h.2⟩

/-- C19: when the inner descriptor carries no rules, the list handed to the
option merge is the copy of `repeatedOptions`, nothing is added to it, and the
result of `Build` does not depend on the serializer: any two helper pairs with
the same option merge give the same result. When the rules are non-empty, the
list is that copy followed by exactly one more entry. -/
theorem C19_no_rules_no_option (H : Helpers) (b : RepeatedField) (fieldNr : Nat)
    (imports : ImportSet) :
    ((b.field.Build fieldNr imports).1.Rules = [] →
      (b.buildRuleOption H fieldNr imports).1 = b.ProtoField.repeatedOptions ∧
      (b.buildMerge H fieldNr imports).1 =
        (H.getOptions b.ProtoField.options b.ProtoField.repeatedOptions).1 ∧
      (∀ K : Helpers, K.getOptions = H.getOptions →
        b.Build K fieldNr imports = b.Build H fieldNr imports)) ∧
    ((b.field.Build fieldNr imports).1.Rules ≠ [] →
      ∃ entry, (b.buildRuleOption H fieldNr imports).1 =
        b.ProtoField.repeatedOptions ++ [entry]) := by
  constructor
  · intro hnil
    have hlen : ¬ (b.field.Build fieldNr imports).1.Rules.length > 0 := by
      rw [hnil]; simp
    have hrule : ∀ K : Helpers, b.buildRuleOption K fieldNr imports
        = (b.ProtoField.repeatedOptions, (b.buildChecks fieldNr imports).2) := by
      intro K
      have hlen2 : ¬ (b.buildChecks fieldNr imports).1.Rules.length > 0 := hlen
      simp only [RepeatedField.buildRuleOption, hlen2, if_false]
    refine ⟨by rw [hrule H], by rw [buildMerge_list, hrule H], ?_⟩
    intro K hK
    have hm : b.buildMerge K fieldNr imports = b.buildMerge H fieldNr imports := by
      simp only [RepeatedField.buildMerge, hrule K, hrule H, hK]
    simp only [RepeatedField.Build, hm]
  · intro hne
    have hlen : (b.field.Build fieldNr imports).1.Rules.length > 0 :=
      List.length_pos.mpr hne
    exact ⟨_, by rw [buildRuleOption_list, if_pos hlen]⟩

/-- C19 over a plain scalar field and over a field with one rule: without
rules a failing serializer changes nothing and `Build` succeeds; with the rule
the list handed to the option merge has one entry. -/
theorem C19_no_rules_no_option_witness :
    (Repeated "tags" (stubBuilder stringData none)).Build failingSerializer 1 []
      = (Repeated "tags" (stubBuilder stringData none)).Build specHelpers 1 [] ∧
    ((Repeated "tags" (stubBuilder stringData none)).Build failingSerializer 1 []).2
      = none ∧
    ((Repeated "tags" (stubBuilder patternData none)).buildRuleOption specHelpers 1 []).1.length
      = 1 := by
  have h1 := (C19_no_rules_no_option specHelpers
    (Repeated "tags" (stubBuilder stringData none)) 1 []).1 rfl
  obtain ⟨entry, h2⟩ := (C19_no_rules_no_option specHelpers
    (Repeated "tags" (stubBuilder patternData none)) 1 []).2 (List.cons_ne_nil _ _)
  refine ⟨h1.2.2 failingSerializer rfl, ?_, ?_⟩
  · rw [h1.2.2 failingSerializer rfl]
    rfl
  · rw [h2]
    rfl

end Protoschema
